import Mathlib

/-!
# Verification of the TarsRust codec, protocol and availability state machines

Shallow embedding of the TarsRust repository:
* `src/codec/types.rs`, `src/codec/buffer.rs`, `src/codec/reader.rs`, `src/codec/mod.rs`
* `src/protocol/packet.rs`
* `src/adapter/mod.rs` (`check_active`)
* `src/registry/mod.rs` (`NodeCircuitBreaker`)
* `src/servant/mod.rs` (`gen_request_id`)

Byte buffers are modelled as `List Nat` (each element a `u8` value `< 256` by
construction of the writers).  Machine integers are modelled as `Int`/`Nat`
with explicit two's-complement reductions.  Rust `f32`/`f64` values are
modelled by their IEEE-754 bit patterns (a `Nat`); the only float operation
the codec performs is the comparison `data == 0.0`, which on bit patterns is
"is positive or negative zero".  Fallible reader operations return `Option`.
-/

namespace TarsRust

/-! ## Two's-complement helpers -/

/-- The unsigned `w`-bit pattern of an integer (`v` reduced modulo `2^w`). -/
def toU (w : Nat) (v : Int) : Nat := (v % ((2 : Int) ^ w)).toNat

/-- The signed value of a `w`-bit pattern (two's complement). -/
def toI (w : Nat) (n : Nat) : Int :=
  if n < 2 ^ (w - 1) then (n : Int) else (n : Int) - 2 ^ w

/-! ## Byte serialisation -/

/-- `n` big-endian bytes of `x` (the low `8*n` bits, like `put_uN`/`put_iN`). -/
def bytesBE : Nat → Nat → List Nat
  | 0, _ => []
  | n + 1, x => (x / 2 ^ (8 * n)) % 256 :: bytesBE n x

/-- Read a single byte (`cursor.read_u8`). -/
def readU8 : List Nat → Option (Nat × List Nat)
  | [] => none
  | b :: rest => some (b, rest)

/-- Read `n` big-endian bytes (`read_u32::<BigEndian>` and friends). -/
def readBE : Nat → List Nat → Option (Nat × List Nat)
  | 0, data => some (0, data)
  | n + 1, data =>
    match readU8 data with
    | none => none
    | some (b, d1) =>
      match readBE n d1 with
      | none => none
      | some (y, d2) => some (b * 2 ^ (8 * n) + y, d2)

/-! ## Tars wire types (`src/codec/types.rs`) -/

/-- The Tars TLV type nibble (enum `TarsType`). -/
inductive TarsType where
  | Byte | Short | Int | Long | Float | Double | String1 | String4
  | Map | List | StructBegin | StructEnd | ZeroTag | SimpleList
deriving DecidableEq, Repr

/-- `TarsType::as_u8`. -/
def TarsType.asU8 : TarsType → Nat
  | .Byte => 0
  | .Short => 1
  | .Int => 2
  | .Long => 3
  | .Float => 4
  | .Double => 5
  | .String1 => 6
  | .String4 => 7
  | .Map => 8
  | .List => 9
  | .StructBegin => 10
  | .StructEnd => 11
  | .ZeroTag => 12
  | .SimpleList => 13

/-- `TarsType::from_u8`. -/
def TarsType.fromU8 : Nat → Option TarsType
  | 0 => some .Byte
  | 1 => some .Short
  | 2 => some .Int
  | 3 => some .Long
  | 4 => some .Float
  | 5 => some .Double
  | 6 => some .String1
  | 7 => some .String4
  | 8 => some .Map
  | 9 => some .List
  | 10 => some .StructBegin
  | 11 => some .StructEnd
  | 12 => some .ZeroTag
  | 13 => some .SimpleList
  | _ => none

/-- Field head: type nibble plus tag (struct `Head`). -/
structure Head where
  ty : TarsType
  tag : Nat
deriving DecidableEq, Repr

/-- `Head::is_struct_end`. -/
def Head.isStructEnd (h : Head) : Bool := h.ty = TarsType.StructEnd

/-! ## Buffer writers (`src/codec/buffer.rs`)

Each `Buffer::write_*` method appends bytes to the buffer; we model it as the
list of bytes appended. -/

/-- `Buffer::write_head`: `(tag << 4) | type` for `tag < 15`, else two bytes. -/
def writeHead (ty : TarsType) (tag : Nat) : List Nat :=
  if tag < 15 then [tag * 16 + ty.asU8]
  else [15 * 16 + ty.asU8, tag % 256]

/-- `Buffer::write_int8` (zero goes to a bare `ZeroTag` head). -/
def writeInt8 (v : Int) (tag : Nat) : List Nat :=
  if v = 0 then writeHead .ZeroTag tag
  else writeHead .Byte tag ++ bytesBE 1 (toU 8 v)

/-- `Buffer::write_int16` (compacts into int8 when the value fits). -/
def writeInt16 (v : Int) (tag : Nat) : List Nat :=
  if -128 ≤ v ∧ v ≤ 127 then writeInt8 v tag
  else writeHead .Short tag ++ bytesBE 2 (toU 16 v)

/-- `Buffer::write_int32` (compacts into int16 when the value fits). -/
def writeInt32 (v : Int) (tag : Nat) : List Nat :=
  if -32768 ≤ v ∧ v ≤ 32767 then writeInt16 v tag
  else writeHead .Int tag ++ bytesBE 4 (toU 32 v)

/-- `Buffer::write_int64` (compacts into int32 when the value fits). -/
def writeInt64 (v : Int) (tag : Nat) : List Nat :=
  if -2147483648 ≤ v ∧ v ≤ 2147483647 then writeInt32 v tag
  else writeHead .Long tag ++ bytesBE 8 (toU 64 v)

/-- `Buffer::write_uint8`: promoted to int16 (`data as i16`). -/
def writeUint8 (v : Nat) (tag : Nat) : List Nat := writeInt16 (v : Int) tag

/-- `Buffer::write_uint16`: promoted to int32 (`data as i32`). -/
def writeUint16 (v : Nat) (tag : Nat) : List Nat := writeInt32 (v : Int) tag

/-- `Buffer::write_uint32`: promoted to int64 (`data as i64`). -/
def writeUint32 (v : Nat) (tag : Nat) : List Nat := writeInt64 (v : Int) tag

/-- The `f32` bit patterns for which Rust `data == 0.0` holds (positive and
negative zero). -/
def f32IsZero (b : Nat) : Bool := b == 0 || b == 2 ^ 31

/-- The `f64` bit patterns for which Rust `data == 0.0` holds. -/
def f64IsZero (b : Nat) : Bool := b == 0 || b == 2 ^ 63

/-- `Buffer::write_float` on the bit pattern of the argument. -/
def writeFloat (b : Nat) (tag : Nat) : List Nat :=
  if f32IsZero b then writeHead .ZeroTag tag
  else writeHead .Float tag ++ bytesBE 4 b

/-- `Buffer::write_double` on the bit pattern of the argument. -/
def writeDouble (b : Nat) (tag : Nat) : List Nat :=
  if f64IsZero b then writeHead .ZeroTag tag
  else writeHead .Double tag ++ bytesBE 8 b

/-- `Buffer::write_bool`. -/
def writeBool (v : Bool) (tag : Nat) : List Nat :=
  writeInt8 (if v then 1 else 0) tag

/-- `Buffer::write_string` on the UTF-8 bytes of the argument. -/
def writeString (s : List Nat) (tag : Nat) : List Nat :=
  if s.length > 255 then writeHead .String4 tag ++ bytesBE 4 s.length ++ s
  else writeHead .String1 tag ++ [s.length % 256] ++ s

/-- A `usize as i32` cast. -/
def usizeAsI32 (n : Nat) : Int := toI 32 (n % 2 ^ 32)

/-- `Buffer::write_bytes` / `write_bytes_as_int8_vec` (identical bodies):
`SimpleList` head, inner `Byte` head at tag 0, int32 length, raw bytes. -/
def writeBytes (bs : List Nat) (tag : Nat) : List Nat :=
  writeHead .SimpleList tag ++ writeHead .Byte 0 ++ writeInt32 (usizeAsI32 bs.length) 0 ++ bs

/-- The key/value encodings of `Buffer::write_string_map`'s loop body. -/
def writeStringPairs : List (List Nat × List Nat) → List Nat
  | [] => []
  | (k, v) :: rest => writeString k 0 ++ writeString v 1 ++ writeStringPairs rest

/-- `Buffer::write_string_map`: map head, int32 size, then `(key@0, value@1)`
pairs in iteration order (the map is modelled as its entry list). -/
def writeStringMap (m : List (List Nat × List Nat)) (tag : Nat) : List Nat :=
  writeHead .Map tag ++ writeInt32 (usizeAsI32 m.length) 0 ++ writeStringPairs m

/-- `Buffer::to_bytes_with_length`: 4-byte big-endian total length (including
the prefix itself) followed by the payload. -/
def toBytesWithLength (body : List Nat) : List Nat :=
  bytesBE 4 (body.length + 4) ++ body

/-! ## Reader (`src/codec/reader.rs`)

The reader is a cursor over a byte slice; we model each operation as a
function from the unread suffix to `Option (result × new unread suffix)`,
`none` being the `Err` cases.  The `while` loops of `skip_to_tag` /
`skip_to_struct_end` are given a fuel parameter; the entry points instantiate
it with `data.length + 1`, which can never be exhausted because every
iteration consumes at least one byte. -/

/-- UTF-8 validity as checked by `String::from_utf8` (RFC 3629). -/
def utf8Valid : List Nat → Bool
  | [] => true
  | b :: rest =>
    if b < 0x80 then utf8Valid rest
    else if 0xC2 ≤ b && b ≤ 0xDF then
      match rest with
      | c :: r => (0x80 ≤ c && c ≤ 0xBF) && utf8Valid r
      | _ => false
    else if b = 0xE0 then
      match rest with
      | c :: d :: r => (0xA0 ≤ c && c ≤ 0xBF) && (0x80 ≤ d && d ≤ 0xBF) && utf8Valid r
      | _ => false
    else if 0xE1 ≤ b && b ≤ 0xEC then
      match rest with
      | c :: d :: r => (0x80 ≤ c && c ≤ 0xBF) && (0x80 ≤ d && d ≤ 0xBF) && utf8Valid r
      | _ => false
    else if b = 0xED then
      match rest with
      | c :: d :: r => (0x80 ≤ c && c ≤ 0x9F) && (0x80 ≤ d && d ≤ 0xBF) && utf8Valid r
      | _ => false
    else if 0xEE ≤ b && b ≤ 0xEF then
      match rest with
      | c :: d :: r => (0x80 ≤ c && c ≤ 0xBF) && (0x80 ≤ d && d ≤ 0xBF) && utf8Valid r
      | _ => false
    else if b = 0xF0 then
      match rest with
      | c :: d :: e :: r =>
        (0x90 ≤ c && c ≤ 0xBF) && (0x80 ≤ d && d ≤ 0xBF) && (0x80 ≤ e && e ≤ 0xBF) &&
          utf8Valid r
      | _ => false
    else if 0xF1 ≤ b && b ≤ 0xF3 then
      match rest with
      | c :: d :: e :: r =>
        (0x80 ≤ c && c ≤ 0xBF) && (0x80 ≤ d && d ≤ 0xBF) && (0x80 ≤ e && e ≤ 0xBF) &&
          utf8Valid r
      | _ => false
    else if b = 0xF4 then
      match rest with
      | c :: d :: e :: r =>
        (0x80 ≤ c && c ≤ 0x8F) && (0x80 ≤ d && d ≤ 0xBF) && (0x80 ≤ e && e ≤ 0xBF) &&
          utf8Valid r
      | _ => false
    else false

/-- `Reader::read_head_from_cursor`: low nibble is the type, high nibble the
tag; a high nibble of 15 means the tag is in the following byte. -/
def readHead (data : List Nat) : Option (Head × List Nat) :=
  match readU8 data with
  | none => none
  | some (b, d1) =>
    match TarsType.fromU8 (b % 16) with
    | none => none
    | some ty =>
      if b / 16 % 16 = 15 then
        match readU8 d1 with
        | none => none
        | some (t, d2) => some (⟨ty, t⟩, d2)
      else some (⟨ty, b / 16 % 16⟩, d1)

mutual

/-- `Reader::skip_field`: consume the payload of a field whose head has
already been read. -/
def skipField (fuel : Nat) (ty : TarsType) (data : List Nat) : Option (List Nat) :=
  match fuel with
  | 0 => none
  | f + 1 =>
    match ty with
    | .Byte => (readBE 1 data).map Prod.snd
    | .Short => (readBE 2 data).map Prod.snd
    | .Int => (readBE 4 data).map Prod.snd
    | .Long => (readBE 8 data).map Prod.snd
    | .Float => (readBE 4 data).map Prod.snd
    | .Double => (readBE 8 data).map Prod.snd
    | .String1 =>
      match readU8 data with
      | none => none
      | some (len, d1) => some (d1.drop len)
    | .String4 =>
      match readBE 4 data with
      | none => none
      | some (len, d1) => some (d1.drop len)
    | .Map =>
      match readInt32F f 0 true data with
      | none => none
      | some (size, d1) => skipPairs f size.toNat d1
    | .List =>
      match readInt32F f 0 true data with
      | none => none
      | some (size, d1) => skipItems f size.toNat d1
    | .StructBegin => skipToStructEnd f data
    | .StructEnd => some data
    | .ZeroTag => some data
    | .SimpleList =>
      match readHead data with
      | none => none
      | some (_, d1) =>
        match readInt32F f 0 true d1 with
        | none => none
        | some (len, d2) => some (d2.drop (toU 64 len))
termination_by (fuel, 0, 0)

/-- The key/value skipping loop of `skip_field`'s `Map` arm. -/
def skipPairs (fuel : Nat) (n : Nat) (data : List Nat) : Option (List Nat) :=
  match n with
  | 0 => some data
  | m + 1 =>
    match readHead data with
    | none => none
    | some (kh, d1) =>
      match skipField fuel kh.ty d1 with
      | none => none
      | some d2 =>
        match readHead d2 with
        | none => none
        | some (vh, d3) =>
          match skipField fuel vh.ty d3 with
          | none => none
          | some d4 => skipPairs fuel m d4
termination_by (fuel, 1, n)

/-- The element skipping loop of `skip_field`'s `List` arm. -/
def skipItems (fuel : Nat) (n : Nat) (data : List Nat) : Option (List Nat) :=
  match n with
  | 0 => some data
  | m + 1 =>
    match readHead data with
    | none => none
    | some (h, d1) =>
      match skipField fuel h.ty d1 with
      | none => none
      | some d2 => skipItems fuel m d2
termination_by (fuel, 1, n)

/-- `Reader::skip_to_struct_end`. -/
def skipToStructEnd (fuel : Nat) (data : List Nat) : Option (List Nat) :=
  match fuel with
  | 0 => none
  | f + 1 =>
    match data with
    | [] => none
    | _ :: _ =>
      match readHead data with
      | none => none
      | some (h, d1) =>
        if h.ty = TarsType.StructEnd then some d1
        else
          match skipField f h.ty d1 with
          | none => none
          | some d2 => skipToStructEnd f d2
termination_by (fuel, 0, 0)

/-- `Reader::skip_to_tag`.  `some (none, d)` is `Ok(None)` with the cursor at
`d` (the loop peeks without consuming before it gives up). -/
def skipToTag (fuel : Nat) (target : Nat) (data : List Nat) :
    Option (Option Head × List Nat) :=
  match fuel with
  | 0 => none
  | f + 1 =>
    match data with
    | [] => some (none, data)
    | _ :: _ =>
      match readHead data with
      | none => none
      | some (h, d1) =>
        if h.ty = TarsType.StructEnd ∨ h.tag > target then some (none, data)
        else if h.tag = target then some (some h, d1)
        else
          match skipField f h.ty d1 with
          | none => none
          | some d2 => skipToTag f target d2
termination_by (fuel, 2, 0)

/-- `Reader::read_int32` with explicit fuel (called from inside `skip_field`
for map/list/simple-list sizes). -/
def readInt32F (fuel : Nat) (tag : Nat) (require : Bool) (data : List Nat) :
    Option (Int × List Nat) :=
  match skipToTag fuel tag data with
  | none => none
  | some (none, d) => if require then none else some (0, d)
  | some (some h, d) =>
    match h.ty with
    | .ZeroTag => some (0, d)
    | .Byte => (readBE 1 d).map fun p => (toI 8 p.1, p.2)
    | .Short => (readBE 2 d).map fun p => (toI 16 p.1, p.2)
    | .Int => (readBE 4 d).map fun p => (toI 32 p.1, p.2)
    | _ => none
termination_by (fuel, 3, 0)

end

/-- `Reader::read_int8`. -/
def readInt8 (tag : Nat) (require : Bool) (data : List Nat) : Option (Int × List Nat) :=
  match skipToTag (data.length + 1) tag data with
  | none => none
  | some (none, d) => if require then none else some (0, d)
  | some (some h, d) =>
    match h.ty with
    | .ZeroTag => some (0, d)
    | .Byte => (readBE 1 d).map fun p => (toI 8 p.1, p.2)
    | _ => none

/-- `Reader::read_int16`. -/
def readInt16 (tag : Nat) (require : Bool) (data : List Nat) : Option (Int × List Nat) :=
  match skipToTag (data.length + 1) tag data with
  | none => none
  | some (none, d) => if require then none else some (0, d)
  | some (some h, d) =>
    match h.ty with
    | .ZeroTag => some (0, d)
    | .Byte => (readBE 1 d).map fun p => (toI 8 p.1, p.2)
    | .Short => (readBE 2 d).map fun p => (toI 16 p.1, p.2)
    | _ => none

/-- `Reader::read_int32`. -/
def readInt32 (tag : Nat) (require : Bool) (data : List Nat) : Option (Int × List Nat) :=
  readInt32F (data.length + 1) tag require data

/-- `Reader::read_int64`. -/
def readInt64 (tag : Nat) (require : Bool) (data : List Nat) : Option (Int × List Nat) :=
  match skipToTag (data.length + 1) tag data with
  | none => none
  | some (none, d) => if require then none else some (0, d)
  | some (some h, d) =>
    match h.ty with
    | .ZeroTag => some (0, d)
    | .Byte => (readBE 1 d).map fun p => (toI 8 p.1, p.2)
    | .Short => (readBE 2 d).map fun p => (toI 16 p.1, p.2)
    | .Int => (readBE 4 d).map fun p => (toI 32 p.1, p.2)
    | .Long => (readBE 8 d).map fun p => (toI 64 p.1, p.2)
    | _ => none

/-- `Reader::read_float`; the result is the bit pattern of the returned
`f32` (`Ok(0.0)` is pattern `0`). -/
def readFloat (tag : Nat) (require : Bool) (data : List Nat) : Option (Nat × List Nat) :=
  match skipToTag (data.length + 1) tag data with
  | none => none
  | some (none, d) => if require then none else some (0, d)
  | some (some h, d) =>
    match h.ty with
    | .ZeroTag => some (0, d)
    | .Float => readBE 4 d
    | _ => none

/-- Bit-level `f32 as f64` conversion (`read_double` widens a `Float` field). -/
def f32ToF64Bits (b : Nat) : Nat :=
  let s := b / 2 ^ 31 % 2
  let e := b / 2 ^ 23 % 256
  let m := b % 2 ^ 23
  if e = 255 then s * 2 ^ 63 + 2047 * 2 ^ 52 + m * 2 ^ 29
  else if e = 0 then
    if m = 0 then s * 2 ^ 63
    else
      let L := Nat.log2 m
      s * 2 ^ 63 + (L + 874) * 2 ^ 52 + (m - 2 ^ L) * 2 ^ (52 - L)
  else s * 2 ^ 63 + (e + 896) * 2 ^ 52 + m * 2 ^ 29

/-- `Reader::read_double`; the result is the bit pattern of the returned
`f64`. -/
def readDouble (tag : Nat) (require : Bool) (data : List Nat) : Option (Nat × List Nat) :=
  match skipToTag (data.length + 1) tag data with
  | none => none
  | some (none, d) => if require then none else some (0, d)
  | some (some h, d) =>
    match h.ty with
    | .ZeroTag => some (0, d)
    | .Float => (readBE 4 d).map fun p => (f32ToF64Bits p.1, p.2)
    | .Double => readBE 8 d
    | _ => none

/-- `Reader::read_bool`: `read_int8 != 0`. -/
def readBool (tag : Nat) (require : Bool) (data : List Nat) : Option (Bool × List Nat) :=
  match readInt8 tag require data with
  | none => none
  | some (v, d) => some (v ≠ 0, d)

/-- `Reader::read_string` (result is the UTF-8 byte content). -/
def readString (tag : Nat) (require : Bool) (data : List Nat) :
    Option (List Nat × List Nat) :=
  match skipToTag (data.length + 1) tag data with
  | none => none
  | some (none, d) => if require then none else some ([], d)
  | some (some h, d) =>
    match h.ty with
    | .String1 =>
      match readU8 d with
      | none => none
      | some (len, d1) =>
        if len ≤ d1.length ∧ utf8Valid (d1.take len) then some (d1.take len, d1.drop len)
        else none
    | .String4 =>
      match readBE 4 d with
      | none => none
      | some (len, d1) =>
        if len ≤ d1.length ∧ utf8Valid (d1.take len) then some (d1.take len, d1.drop len)
        else none
    | _ => none

/-- The element loop of `read_bytes`' `List` arm. -/
def readByteItems : Nat → List Nat → Option (List Nat × List Nat)
  | 0, d => some ([], d)
  | n + 1, d =>
    match readHead d with
    | none => none
    | some (h, d1) =>
      match h.ty with
      | .ZeroTag => (readByteItems n d1).map fun p => (0 :: p.1, p.2)
      | .Byte =>
        match readBE 1 d1 with
        | none => none
        | some (b, d2) => (readByteItems n d2).map fun p => (toU 8 (toI 8 b) :: p.1, p.2)
      | _ => none

/-- `Reader::read_bytes`. -/
def readBytes (tag : Nat) (require : Bool) (data : List Nat) :
    Option (List Nat × List Nat) :=
  match skipToTag (data.length + 1) tag data with
  | none => none
  | some (none, d) => if require then none else some ([], d)
  | some (some h, d) =>
    match h.ty with
    | .SimpleList =>
      match readHead d with
      | none => none
      | some (_, d1) =>
        match readInt32F (d1.length + 1) 0 true d1 with
        | none => none
        | some (len, d2) =>
          let n := toU 64 len
          if n ≤ d2.length then some (d2.take n, d2.drop n) else none
    | .List =>
      match readInt32F (d.length + 1) 0 true d with
      | none => none
      | some (len, d1) => readByteItems (toU 64 len) d1
    | _ => none

/-- `Reader::read_map_begin`. -/
def readMapBegin (tag : Nat) (require : Bool) (data : List Nat) :
    Option (Int × List Nat) :=
  match skipToTag (data.length + 1) tag data with
  | none => none
  | some (none, d) => if require then none else some (0, d)
  | some (some h, d) =>
    if h.ty = TarsType.Map then readInt32F (d.length + 1) 0 true d else none

/-- The key/value loop of `read_string_map`; the result keeps the pairs in
read order (inserting them into a `HashMap` is order-insensitive). -/
def readStringPairs : Nat → List Nat → Option (List (List Nat × List Nat) × List Nat)
  | 0, d => some ([], d)
  | n + 1, d =>
    match readString 0 true d with
    | none => none
    | some (k, d1) =>
      match readString 1 true d1 with
      | none => none
      | some (v, d2) => (readStringPairs n d2).map fun p => ((k, v) :: p.1, p.2)

/-- `Reader::read_string_map`. -/
def readStringMap (tag : Nat) (require : Bool) (data : List Nat) :
    Option (List (List Nat × List Nat) × List Nat) :=
  match readMapBegin tag require data with
  | none => none
  | some (size, d) => readStringPairs size.toNat d

/-! ## Package framing (`parse_package`, `src/codec/types.rs`) -/

/-- Enum `PackageStatus`. -/
inductive PackageStatus where
  | Full | Less | Error
deriving DecidableEq, Repr

/-- `MAX_PACKAGE_LENGTH` (`src/lib.rs`). -/
def MAX_PACKAGE_LENGTH : Nat := 100 * 1024 * 1024

/-- `u32::from_be_bytes([data[0], data[1], data[2], data[3]])` (callers check
`data.len() >= 4` first). -/
def beU32 (data : List Nat) : Nat :=
  data.headI * 2 ^ 24 + (data.drop 1).headI * 2 ^ 16 +
    (data.drop 2).headI * 2 ^ 8 + (data.drop 3).headI

/-- `parse_package`: length-prefix framing check. -/
def parsePackage (data : List Nat) : Nat × PackageStatus :=
  if data.length < 4 then (0, .Less)
  else
    let headerLen := beU32 data
    if headerLen < 4 ∨ headerLen > MAX_PACKAGE_LENGTH then (0, .Error)
    else if data.length < headerLen then (0, .Less)
    else (headerLen, .Full)

/-! ## Request/response packets (`src/protocol/packet.rs`)

Strings are modelled by their UTF-8 bytes; the two `HashMap<String, String>`
fields are modelled by their entry lists in iteration order. -/

/-- `RequestPacket`. -/
structure RequestPacket where
  iVersion : Int
  cPacketType : Int
  iMessageType : Int
  iRequestId : Int
  sServantName : List Nat
  sFuncName : List Nat
  sBuffer : List Nat
  iTimeout : Int
  context : List (List Nat × List Nat)
  status : List (List Nat × List Nat)
deriving DecidableEq, Repr

/-- `RequestPacket::write_to`: the tagged fields, in tag order 1..10. -/
def RequestPacket.writeTo (p : RequestPacket) : List Nat :=
  writeInt16 p.iVersion 1 ++ writeInt8 p.cPacketType 2 ++
    writeInt32 p.iMessageType 3 ++ writeInt32 p.iRequestId 4 ++
    writeString p.sServantName 5 ++ writeString p.sFuncName 6 ++
    writeBytes p.sBuffer 7 ++ writeInt32 p.iTimeout 8 ++
    writeStringMap p.context 9 ++ writeStringMap p.status 10

/-- `RequestPacket::encode`: body plus 4-byte big-endian total length. -/
def RequestPacket.encode (p : RequestPacket) : List Nat :=
  toBytesWithLength p.writeTo

/-- `RequestPacket::read_from`. -/
def RequestPacket.readFrom (data : List Nat) : Option RequestPacket := do
  let (v1, d) ← readInt16 1 false data
  let (v2, d) ← readInt8 2 false d
  let (v3, d) ← readInt32 3 false d
  let (v4, d) ← readInt32 4 false d
  let (v5, d) ← readString 5 false d
  let (v6, d) ← readString 6 false d
  let (v7, d) ← readBytes 7 false d
  let (v8, d) ← readInt32 8 false d
  let (v9, d) ← readStringMap 9 false d
  let (v10, _) ← readStringMap 10 false d
  pure ⟨v1, v2, v3, v4, v5, v6, v7, v8, v9, v10⟩

/-- `RequestPacket::decode`: strip the first 4 bytes exactly when they parse
as a length equal to the input slice length. -/
def RequestPacket.decode (data : List Nat) : Option RequestPacket :=
  let body :=
    if 4 ≤ data.length then
      if beU32 data = data.length then data.drop 4 else data
    else data
  RequestPacket.readFrom body

/-- `ResponsePacket`. -/
structure ResponsePacket where
  iVersion : Int
  cPacketType : Int
  iRequestId : Int
  iMessageType : Int
  iRet : Int
  sBuffer : List Nat
  status : List (List Nat × List Nat)
  sResultDesc : List Nat
  context : List (List Nat × List Nat)
deriving DecidableEq, Repr

/-- `ResponsePacket::write_to`: the tagged fields, in tag order 1..9. -/
def ResponsePacket.writeTo (p : ResponsePacket) : List Nat :=
  writeInt16 p.iVersion 1 ++ writeInt8 p.cPacketType 2 ++
    writeInt32 p.iRequestId 3 ++ writeInt32 p.iMessageType 4 ++
    writeInt32 p.iRet 5 ++ writeBytes p.sBuffer 6 ++
    writeStringMap p.status 7 ++ writeString p.sResultDesc 8 ++
    writeStringMap p.context 9

/-- `ResponsePacket::encode`. -/
def ResponsePacket.encode (p : ResponsePacket) : List Nat :=
  toBytesWithLength p.writeTo

/-- `ResponsePacket::read_from`. -/
def ResponsePacket.readFrom (data : List Nat) : Option ResponsePacket := do
  let (v1, d) ← readInt16 1 false data
  let (v2, d) ← readInt8 2 false d
  let (v3, d) ← readInt32 3 false d
  let (v4, d) ← readInt32 4 false d
  let (v5, d) ← readInt32 5 false d
  let (v6, d) ← readBytes 6 false d
  let (v7, d) ← readStringMap 7 false d
  let (v8, d) ← readString 8 false d
  let (v9, _) ← readStringMap 9 false d
  pure ⟨v1, v2, v3, v4, v5, v6, v7, v8, v9⟩

/-- `ResponsePacket::decode`. -/
def ResponsePacket.decode (data : List Nat) : Option ResponsePacket :=
  let body :=
    if 4 ≤ data.length then
      if beU32 data = data.length then data.drop 4 else data
    else data
  ResponsePacket.readFrom body

/-! ## Adapter health check (`src/adapter/mod.rs`) -/

/-- Health-check constants (`src/lib.rs`, `consts`). -/
def FAIL_INTERVAL : Int := 5

def FAIL_N : Int := 5

def CHECK_TIME : Int := 60

def OVER_N : Int := 2

/-- The failure-ratio threshold 0.5f32 from `src/lib.rs` (exactly
representable; the `f32` comparison `fail as f32 / send as f32 >= 0.5` is
modelled by the exact rational comparison). -/
def failRatio : ℚ := 1 / 2

def TRY_TIME_INTERVAL : Int := 30

/-- The atomic counters and flags of `AdapterProxy` that `check_active`
touches. -/
structure AdapterState where
  failCount : Int
  lastFailCount : Int
  sendCount : Int
  successCount : Int
  lastSuccessTime : Int
  lastBlockTime : Int
  lastCheckTime : Int
  status : Bool
  closed : Bool
deriving DecidableEq, Repr

/-- `AdapterProxy::check_active` as a pure transition on the adapter state
with the current time `now` passed explicitly; result is
`(new state, first_time_inactive, need_check)`. -/
def checkActive (s : AdapterState) (now : Int) : AdapterState × Bool × Bool :=
  if s.closed then (s, false, false)
  else if s.status then
    if now - s.lastSuccessTime ≥ FAIL_INTERVAL ∧ s.lastFailCount ≥ FAIL_N then
      ({ s with status := false, lastBlockTime := now }, true, false)
    else if now - s.lastCheckTime ≥ CHECK_TIME then
      if s.failCount ≥ OVER_N ∧ s.sendCount > 0 ∧
          (s.failCount : ℚ) / (s.sendCount : ℚ) ≥ failRatio then
        ({ s with lastCheckTime := now, status := false, lastBlockTime := now }, true, false)
      else ({ s with lastCheckTime := now }, false, false)
    else (s, false, false)
  else
    if now - s.lastBlockTime ≥ TRY_TIME_INTERVAL then
      ({ s with lastBlockTime := now }, false, true)
    else (s, false, false)

/-! ## Registry node circuit breaker (`src/registry/mod.rs`) -/

def REGISTRY_FAIL_THRESHOLD : Int := 1

def REGISTRY_RECOVER_INTERVAL : Int := 30

/-- The state of a `NodeCircuitBreaker` (the `address` string is irrelevant
to the claims and omitted). -/
structure BreakerState where
  available : Bool
  failCount : Int
  lastFailTime : Int
  lastSuccessTime : Int
  circuitOpenTime : Int
deriving DecidableEq, Repr

/-- `NodeCircuitBreaker::new` (`now` is the `now_secs()` call). -/
def BreakerState.new (now : Int) : BreakerState :=
  { available := true, failCount := 0, lastFailTime := 0,
    lastSuccessTime := now, circuitOpenTime := 0 }

/-- `NodeCircuitBreaker::is_available`. -/
def BreakerState.isAvailable (s : BreakerState) (now : Int) : Bool :=
  if s.available then true
  else if now - s.circuitOpenTime ≥ REGISTRY_RECOVER_INTERVAL then true
  else false

/-- `NodeCircuitBreaker::record_success`. -/
def BreakerState.recordSuccess (s : BreakerState) (now : Int) : BreakerState :=
  { s with available := true, failCount := 0, lastSuccessTime := now }

/-- Wrapping i32 increment (`AtomicI32::fetch_add`). -/
def wrapAdd32 (a b : Int) : Int := toI 32 (toU 32 (a + b))

/-- `NodeCircuitBreaker::record_failure`; returns the updated state and
whether the circuit was just opened. -/
def BreakerState.recordFailure (s : BreakerState) (now : Int) : BreakerState × Bool :=
  let count := wrapAdd32 s.failCount 1
  let s1 := { s with failCount := count, lastFailTime := now }
  if count ≥ REGISTRY_FAIL_THRESHOLD then
    let wasAvailable := s1.available
    let s2 := { s1 with available := false }
    if wasAvailable then ({ s2 with circuitOpenTime := now }, true)
    else (s2, false)
  else (s1, false)

/-- `NodeCircuitBreaker::reset`. -/
def BreakerState.reset (s : BreakerState) : BreakerState :=
  { s with available := true, failCount := 0, circuitOpenTime := 0 }

/-! ## Request-id allocator (`src/servant/mod.rs`) -/

def INT32_MAX : Int := 2147483647

/-- One increment of the request-id counter: wrap from `INT32_MAX - 1`
back to 1, else add one. -/
def reqNext (current : Int) : Int :=
  if current ≥ INT32_MAX - 1 then 1 else current + 1

/-- `gen_request_id` under sequential (uncontended) execution: the CAS always
succeeds, and the `next != 0` guard retries at most once because a stored 0
steps to 1.  Returns `(returned id, new counter value)`. -/
def genRequestId (s : Int) : Int × Int :=
  let n := reqNext s
  if n ≠ 0 then (n, n)
  else
    let n2 := reqNext n
    (n2, n2)

/-- The counter value after `k` sequential allocations from the initial
counter 0 (`static REQUEST_ID: AtomicI32 = AtomicI32::new(0)`). -/
def genStateSeq : Nat → Int
  | 0 => 0
  | k + 1 => (genRequestId (genStateSeq k)).2

/-- The id returned by the `(k+1)`-th sequential allocation. -/
def genValue (k : Nat) : Int := (genRequestId (genStateSeq k)).1

/-! ## The universe of writer-emittable TLV values (for skip correctness)

`TarsValue` covers everything the `Buffer` writers and the generic
`TarsEncode` instances can emit: optimally-compacted integers (which also
covers bools), floats and doubles by bit pattern, strings, byte arrays
(simple lists), maps, lists and structs. -/

inductive TarsValue where
  | vInt (v : Int)
  | vFloat (b : Nat)
  | vDouble (b : Nat)
  | vString (s : List Nat)
  | vBytes (bs : List Nat)
  | vMap (entries : List (TarsValue × TarsValue))
  | vList (items : List TarsValue)
  | vStruct (fields : List (Nat × TarsValue))
deriving Repr

mutual

/-- The bytes emitted for a `TarsValue` at a tag: integers via `write_int64`,
floats via `write_float`/`write_double`, strings via `write_string`, byte
arrays via `write_bytes`, maps/lists via the generic `TarsEncode` instances
(`HashMap`/`Vec`: head, int32 size, elements with keys at tag 0 and values at
tag 1), structs via `write_struct_begin`/fields/`write_struct_end`. -/
def encodeVal : TarsValue → Nat → List Nat
  | .vInt v, tag => writeInt64 v tag
  | .vFloat b, tag => writeFloat b tag
  | .vDouble b, tag => writeDouble b tag
  | .vString s, tag => writeString s tag
  | .vBytes bs, tag => writeBytes bs tag
  | .vMap es, tag =>
    writeHead .Map tag ++ writeInt32 (usizeAsI32 es.length) 0 ++ encodePairs es
  | .vList xs, tag =>
    writeHead .List tag ++ writeInt32 (usizeAsI32 xs.length) 0 ++ encodeItems xs
  | .vStruct fs, tag =>
    writeHead .StructBegin tag ++ encodeFields fs ++ writeHead .StructEnd 0

/-- Encoded key/value pairs of a map (`k.encode(buf, 0); v.encode(buf, 1)`). -/
def encodePairs : List (TarsValue × TarsValue) → List Nat
  | [] => []
  | (k, v) :: rest => encodeVal k 0 ++ encodeVal v 1 ++ encodePairs rest

/-- Encoded elements of a list (`item.encode(buf, 0)`). -/
def encodeItems : List TarsValue → List Nat
  | [] => []
  | x :: rest => encodeVal x 0 ++ encodeItems rest

/-- Encoded fields of a struct, each at its own tag. -/
def encodeFields : List (Nat × TarsValue) → List Nat
  | [] => []
  | (t, v) :: rest => encodeVal v t ++ encodeFields rest

end

/-- The head type nibble `write_int64` ends up emitting for a value. -/
def intTy (v : Int) : TarsType :=
  if v = 0 then .ZeroTag
  else if -128 ≤ v ∧ v ≤ 127 then .Byte
  else if -32768 ≤ v ∧ v ≤ 32767 then .Short
  else if -2147483648 ≤ v ∧ v ≤ 2147483647 then .Int
  else .Long

/-- The payload bytes `write_int64` emits after the head. -/
def intPayload (v : Int) : List Nat :=
  if v = 0 then []
  else if -128 ≤ v ∧ v ≤ 127 then bytesBE 1 (toU 8 v)
  else if -32768 ≤ v ∧ v ≤ 32767 then bytesBE 2 (toU 16 v)
  else if -2147483648 ≤ v ∧ v ≤ 2147483647 then bytesBE 4 (toU 32 v)
  else bytesBE 8 (toU 64 v)

/-- The head type nibble of a value's encoding. -/
def tyOf : TarsValue → TarsType
  | .vInt v => intTy v
  | .vFloat b => if f32IsZero b then .ZeroTag else .Float
  | .vDouble b => if f64IsZero b then .ZeroTag else .Double
  | .vString s => if s.length > 255 then .String4 else .String1
  | .vBytes _ => .SimpleList
  | .vMap _ => .Map
  | .vList _ => .List
  | .vStruct _ => .StructBegin

mutual

/-- The payload bytes (everything after the outer head) of a value's
encoding. -/
def payloadV : TarsValue → List Nat
  | .vInt v => intPayload v
  | .vFloat b => if f32IsZero b then [] else bytesBE 4 b
  | .vDouble b => if f64IsZero b then [] else bytesBE 8 b
  | .vString s =>
    if s.length > 255 then bytesBE 4 s.length ++ s else [s.length % 256] ++ s
  | .vBytes bs => writeHead .Byte 0 ++ writeInt32 (usizeAsI32 bs.length) 0 ++ bs
  | .vMap es => writeInt32 (usizeAsI32 es.length) 0 ++ encodePairsP es
  | .vList xs => writeInt32 (usizeAsI32 xs.length) 0 ++ encodeItemsP xs
  | .vStruct fs => encodeFieldsP fs ++ writeHead .StructEnd 0

def encodePairsP : List (TarsValue × TarsValue) → List Nat
  | [] => []
  | (k, v) :: rest =>
    writeHead (tyOf k) 0 ++ payloadV k ++ writeHead (tyOf v) 1 ++ payloadV v ++
      encodePairsP rest

def encodeItemsP : List TarsValue → List Nat
  | [] => []
  | x :: rest => writeHead (tyOf x) 0 ++ payloadV x ++ encodeItemsP rest

def encodeFieldsP : List (Nat × TarsValue) → List Nat
  | [] => []
  | (t, v) :: rest => writeHead (tyOf v) t ++ payloadV v ++ encodeFieldsP rest

end

mutual

/-- Well-formedness: the length casts of a value's encoding do not truncate
(string lengths fit `u32`, byte-array lengths and collection sizes fit
`i32`). -/
def wfV : TarsValue → Bool
  | .vInt _ => true
  | .vFloat _ => true
  | .vDouble _ => true
  | .vString s => s.length < 2 ^ 32
  | .vBytes bs => bs.length < 2 ^ 31
  | .vMap es => es.length < 2 ^ 31 && wfPairs es
  | .vList xs => xs.length < 2 ^ 31 && wfItems xs
  | .vStruct fs => wfFields fs

def wfPairs : List (TarsValue × TarsValue) → Bool
  | [] => true
  | (k, v) :: rest => wfV k && wfV v && wfPairs rest

def wfItems : List TarsValue → Bool
  | [] => true
  | x :: rest => wfV x && wfItems rest

def wfFields : List (Nat × TarsValue) → Bool
  | [] => true
  | (_, v) :: rest => wfV v && wfFields rest

end

mutual

/-- A sufficient fuel bound for `skipField` on a value's encoding. -/
def fuelV : TarsValue → Nat
  | .vMap es => 2 + fuelPairs es
  | .vList xs => 2 + fuelItems xs
  | .vStruct fs => 2 + fuelFields fs
  | _ => 2

def fuelPairs : List (TarsValue × TarsValue) → Nat
  | [] => 0
  | (k, v) :: rest => fuelV k + fuelV v + fuelPairs rest

def fuelItems : List TarsValue → Nat
  | [] => 0
  | x :: rest => fuelV x + fuelItems rest

def fuelFields : List (Nat × TarsValue) → Nat
  | [] => 0
  | (_, v) :: rest => 1 + fuelV v + fuelFields rest

end

/-! ## Specification-level predicates -/

/-- Well-formedness of a string→string map model: every key and value fits a
`u32` length and is valid UTF-8. -/
def stringMapWf (m : List (List Nat × List Nat)) : Prop :=
  ∀ kv ∈ m, kv.1.length < 2 ^ 32 ∧ utf8Valid kv.1 = true ∧
    kv.2.length < 2 ^ 32 ∧ utf8Valid kv.2 = true

instance (m : List (List Nat × List Nat)) : Decidable (stringMapWf m) := by
  unfold stringMapWf
  infer_instance

/-- A representable `RequestPacket`: every numeric field is in the range of
its Rust type, strings are valid UTF-8 with `u32`-sized lengths, and
byte-array / map sizes fit an `i32`. -/
def RequestPacket.wf (p : RequestPacket) : Prop :=
  -32768 ≤ p.iVersion ∧ p.iVersion < 32768 ∧
  -128 ≤ p.cPacketType ∧ p.cPacketType < 128 ∧
  -2147483648 ≤ p.iMessageType ∧ p.iMessageType < 2147483648 ∧
  -2147483648 ≤ p.iRequestId ∧ p.iRequestId < 2147483648 ∧
  p.sServantName.length < 2 ^ 32 ∧ utf8Valid p.sServantName = true ∧
  p.sFuncName.length < 2 ^ 32 ∧ utf8Valid p.sFuncName = true ∧
  p.sBuffer.length < 2 ^ 31 ∧
  -2147483648 ≤ p.iTimeout ∧ p.iTimeout < 2147483648 ∧
  p.context.length < 2 ^ 31 ∧ stringMapWf p.context ∧
  p.status.length < 2 ^ 31 ∧ stringMapWf p.status

instance (p : RequestPacket) : Decidable p.wf := by
  unfold RequestPacket.wf
  infer_instance

/-- A representable `ResponsePacket`. -/
def ResponsePacket.wf (p : ResponsePacket) : Prop :=
  -32768 ≤ p.iVersion ∧ p.iVersion < 32768 ∧
  -128 ≤ p.cPacketType ∧ p.cPacketType < 128 ∧
  -2147483648 ≤ p.iRequestId ∧ p.iRequestId < 2147483648 ∧
  -2147483648 ≤ p.iMessageType ∧ p.iMessageType < 2147483648 ∧
  -2147483648 ≤ p.iRet ∧ p.iRet < 2147483648 ∧
  p.sBuffer.length < 2 ^ 31 ∧
  p.status.length < 2 ^ 31 ∧ stringMapWf p.status ∧
  p.sResultDesc.length < 2 ^ 32 ∧ utf8Valid p.sResultDesc = true ∧
  p.context.length < 2 ^ 31 ∧ stringMapWf p.context

instance (p : ResponsePacket) : Decidable p.wf := by
  unfold ResponsePacket.wf
  infer_instance

/-- IEEE-754 `f32` equality on bit patterns, restricted to what the codec can
observe: bitwise equal, or both are (positive or negative) zero.  NaN
patterns are bitwise preserved by the codec, so this relation is reflexive on
everything it emits. -/
def f32Eq (b1 b2 : Nat) : Prop := b1 = b2 ∨ (f32IsZero b1 = true ∧ f32IsZero b2 = true)

/-- IEEE-754 `f64` equality on bit patterns (same reading as `f32Eq`). -/
def f64Eq (b1 b2 : Nat) : Prop := b1 = b2 ∨ (f64IsZero b1 = true ∧ f64IsZero b2 = true)

/-- The `TarsEncode for u8` instance: `buf.write_int8(*self as i8, tag)`. -/
def tarsEncodeU8 (v : Nat) (tag : Nat) : List Nat := writeInt8 (toI 8 (v % 2 ^ 8)) tag

/-- The `TarsEncode for u16` instance: `buf.write_int16(*self as i16, tag)`. -/
def tarsEncodeU16 (v : Nat) (tag : Nat) : List Nat := writeInt16 (toI 16 (v % 2 ^ 16)) tag

/-- The `TarsEncode for u32` instance: `buf.write_int32(*self as i32, tag)`. -/
def tarsEncodeU32 (v : Nat) (tag : Nat) : List Nat := writeInt32 (toI 32 (v % 2 ^ 32)) tag

/-- The `TarsDecode for u8` instance: `read_int8(tag, require)? as u8`. -/
def tarsDecodeU8 (tag : Nat) (require : Bool) (data : List Nat) :
    Option (Nat × List Nat) :=
  (readInt8 tag require data).map fun p => (toU 8 p.1, p.2)

/-- The `TarsDecode for u16` instance: `read_int16(tag, require)? as u16`. -/
def tarsDecodeU16 (tag : Nat) (require : Bool) (data : List Nat) :
    Option (Nat × List Nat) :=
  (readInt16 tag require data).map fun p => (toU 16 p.1, p.2)

/-- The `TarsDecode for u32` instance: `read_int32(tag, require)? as u32`. -/
def tarsDecodeU32 (tag : Nat) (require : Bool) (data : List Nat) :
    Option (Nat × List Nat) :=
  (readInt32 tag require data).map fun p => (toU 32 p.1, p.2)

/-- The active-to-inactive trigger condition exactly as claim C6 words it:
(a) `now - last-success ≥ FAIL_INTERVAL` and `consecutive-fail ≥ FAIL_N`, or
(b) the 60 s check gate is due and `fail / max(send,1) ≥ failRatio` with
`fail ≥ OVER_N`. -/
def specC6ActiveCond (s : AdapterState) (now : Int) : Prop :=
  (now - s.lastSuccessTime ≥ FAIL_INTERVAL ∧ s.lastFailCount ≥ FAIL_N) ∨
  (now - s.lastCheckTime ≥ CHECK_TIME ∧
    (s.failCount : ℚ) / (max s.sendCount 1 : Int) ≥ failRatio ∧ s.failCount ≥ OVER_N)

instance (s : AdapterState) (now : Int) : Decidable (specC6ActiveCond s now) := by
  unfold specC6ActiveCond
  infer_instance

/-! ## Arithmetic and byte-level lemmas -/

theorem toU_lt (w : Nat) (v : Int) : toU w v < 2 ^ w := by
  have h2 : (0 : Int) < 2 ^ w := by positivity
  have hlt := Int.emod_lt_of_pos v h2
  have hge := Int.emod_nonneg v (ne_of_gt h2)
  have hcast : ((2 ^ w : Nat) : Int) = (2 : Int) ^ w := by push_cast; ring
  unfold toU
  omega

theorem toI_toU (w : Nat) (v : Int) (hw : 1 ≤ w)
    (h1 : -(2 ^ (w - 1)) ≤ v) (h2 : v < 2 ^ (w - 1)) : toI w (toU w v) = v := by
  have hwe : w = (w - 1) + 1 := by omega
  have hpow : (2 : Int) ^ w = 2 ^ (w - 1) * 2 := by
    conv_lhs => rw [hwe]
    rw [pow_succ]
  have hp : (0 : Int) < 2 ^ w := by positivity
  have hmod : v % 2 ^ w = if 0 ≤ v then v else v + 2 ^ w := by
    split
    · exact Int.emod_eq_of_lt (by assumption) (by omega)
    · have : (v + 2 ^ w) % 2 ^ w = v % 2 ^ w := by
        simp
      rw [← this]
      exact Int.emod_eq_of_lt (by omega) (by omega)
  unfold toU toI
  split at hmod
  · rw [hmod]
    have hv : ((Int.toNat v : Int)) = v := Int.toNat_of_nonneg (by assumption)
    have hlt : Int.toNat v < 2 ^ (w - 1) := by
      have : ((2:Nat) ^ (w-1) : Int) = (2:Int) ^ (w-1) := by push_cast; ring
      omega
    simp only [hlt, if_pos]
    omega
  · rw [hmod]
    have hnn : (0 : Int) ≤ v + 2 ^ w := by omega
    have hv : ((Int.toNat (v + 2 ^ w) : Int)) = v + 2 ^ w := Int.toNat_of_nonneg hnn
    have hge : ¬ (Int.toNat (v + 2 ^ w) < 2 ^ (w - 1)) := by
      have : ((2:Nat) ^ (w-1) : Int) = (2:Int) ^ (w-1) := by push_cast; ring
      omega
    simp only [hge, if_neg, not_false_eq_true]
    omega

theorem bytesBE_length (n x : Nat) : (bytesBE n x).length = n := by
  induction n generalizing x with
  | zero => rfl
  | succ n ih => simp [bytesBE, ih]

theorem readBE_bytesBE (n x : Nat) (rest : List Nat) :
    readBE n (bytesBE n x ++ rest) = some (x % 2 ^ (8 * n), rest) := by
  induction n generalizing x with
  | zero => simp [readBE, bytesBE, Nat.mod_one]
  | succ n ih =>
    simp only [bytesBE, readBE, List.cons_append, readU8, ih]
    have hsplit : x % 2 ^ (8 * (n + 1)) = x / 2 ^ (8 * n) % 256 * 2 ^ (8 * n) + x % 2 ^ (8 * n) := by
      have h1 : (2:Nat) ^ (8 * (n + 1)) = 2 ^ (8 * n) * 256 := by
        rw [show 8 * (n + 1) = 8 * n + 8 by ring, pow_add]; norm_num
      rw [h1, Nat.mod_mul]; ring
    simp [hsplit]

theorem TarsType.fromU8_asU8 (t : TarsType) : TarsType.fromU8 t.asU8 = some t := by
  cases t <;> rfl

theorem TarsType.asU8_lt (t : TarsType) : t.asU8 < 14 := by
  cases t <;> simp [TarsType.asU8]

theorem usizeAsI32_eq (n : Nat) (h : n < 2 ^ 31) : usizeAsI32 n = (n : Int) := by
  have h32 : n % 2 ^ 32 = n := Nat.mod_eq_of_lt (by omega)
  unfold usizeAsI32 toI
  rw [h32]
  simp only [show (32 : Nat) - 1 = 31 from rfl]
  rw [if_pos h]

/-! ## Head round trip and tag location -/

theorem readHead_writeHead (ty : TarsType) (tag : Nat) (rest : List Nat) :
    readHead (writeHead ty tag ++ rest) = some (⟨ty, tag % 256⟩, rest) := by
  have h14 := ty.asU8_lt
  unfold writeHead
  split
  · rename_i h15
    have hb16 : (tag * 16 + ty.asU8) % 16 = ty.asU8 := by omega
    have hbdiv : (tag * 16 + ty.asU8) / 16 % 16 = tag := by omega
    have hne : tag ≠ 15 := by omega
    have hmod : tag % 256 = tag := Nat.mod_eq_of_lt (by omega)
    simp [readHead, readU8, hb16, hbdiv, TarsType.fromU8_asU8, hne, hmod]
  · rename_i h15
    have hb16 : (15 * 16 + ty.asU8) % 16 = ty.asU8 := by omega
    have hbdiv : (15 * 16 + ty.asU8) / 16 % 16 = 15 := by omega
    simp [readHead, readU8, hb16, hbdiv, TarsType.fromU8_asU8]

theorem writeHead_ne_nil (ty : TarsType) (tag : Nat) : writeHead ty tag ≠ [] := by
  unfold writeHead
  split <;> simp

/-- `skip_to_tag` finds a head of the target tag sitting at the cursor. -/
theorem skipToTag_found (f : Nat) (ty : TarsType) (tag : Nat) (rest : List Nat)
    (hf : 0 < f) (hty : ty ≠ TarsType.StructEnd) (htag : tag < 256) :
    skipToTag f tag (writeHead ty tag ++ rest) = some (some ⟨ty, tag⟩, rest) := by
  obtain ⟨g, rfl⟩ : ∃ g, f = g + 1 := ⟨f - 1, by omega⟩
  have hmod : tag % 256 = tag := Nat.mod_eq_of_lt htag
  have hcons : ∃ b l, writeHead ty tag ++ rest = b :: l := by
    unfold writeHead
    split <;> simp
  obtain ⟨b, l, hbl⟩ := hcons
  rw [skipToTag.eq_def, hbl, ← hbl, readHead_writeHead, hmod]
  simp [hty, hbl]

/-! ## Unfolding equations for the writers -/

theorem writeInt8_zero (tag : Nat) : writeInt8 0 tag = writeHead .ZeroTag tag := by
  simp [writeInt8]

theorem writeInt8_ne (v : Int) (tag : Nat) (h : v ≠ 0) :
    writeInt8 v tag = writeHead .Byte tag ++ bytesBE 1 (toU 8 v) := by
  rw [writeInt8, if_neg h]

theorem writeInt16_small (v : Int) (tag : Nat) (h : -128 ≤ v ∧ v ≤ 127) :
    writeInt16 v tag = writeInt8 v tag := by
  rw [writeInt16, if_pos h]

theorem writeInt16_big (v : Int) (tag : Nat) (h : ¬(-128 ≤ v ∧ v ≤ 127)) :
    writeInt16 v tag = writeHead .Short tag ++ bytesBE 2 (toU 16 v) := by
  rw [writeInt16, if_neg h]

theorem writeInt32_small (v : Int) (tag : Nat) (h : -32768 ≤ v ∧ v ≤ 32767) :
    writeInt32 v tag = writeInt16 v tag := by
  rw [writeInt32, if_pos h]

theorem writeInt32_big (v : Int) (tag : Nat) (h : ¬(-32768 ≤ v ∧ v ≤ 32767)) :
    writeInt32 v tag = writeHead .Int tag ++ bytesBE 4 (toU 32 v) := by
  rw [writeInt32, if_neg h]

theorem writeInt64_small (v : Int) (tag : Nat) (h : -2147483648 ≤ v ∧ v ≤ 2147483647) :
    writeInt64 v tag = writeInt32 v tag := by
  rw [writeInt64, if_pos h]

theorem writeInt64_big (v : Int) (tag : Nat) (h : ¬(-2147483648 ≤ v ∧ v ≤ 2147483647)) :
    writeInt64 v tag = writeHead .Long tag ++ bytesBE 8 (toU 64 v) := by
  rw [writeInt64, if_neg h]

theorem writeFloat_zero (b : Nat) (tag : Nat) (h : f32IsZero b = true) :
    writeFloat b tag = writeHead .ZeroTag tag := by
  rw [writeFloat, if_pos h]

theorem writeFloat_ne (b : Nat) (tag : Nat) (h : ¬ f32IsZero b = true) :
    writeFloat b tag = writeHead .Float tag ++ bytesBE 4 b := by
  rw [writeFloat, if_neg h]

theorem writeDouble_zero (b : Nat) (tag : Nat) (h : f64IsZero b = true) :
    writeDouble b tag = writeHead .ZeroTag tag := by
  rw [writeDouble, if_pos h]

theorem writeDouble_ne (b : Nat) (tag : Nat) (h : ¬ f64IsZero b = true) :
    writeDouble b tag = writeHead .Double tag ++ bytesBE 8 b := by
  rw [writeDouble, if_neg h]

theorem writeString_big (s : List Nat) (tag : Nat) (h : s.length > 255) :
    writeString s tag = writeHead .String4 tag ++ bytesBE 4 s.length ++ s := by
  rw [writeString, if_pos h]

theorem writeString_small (s : List Nat) (tag : Nat) (h : ¬ s.length > 255) :
    writeString s tag = writeHead .String1 tag ++ [s.length % 256] ++ s := by
  rw [writeString, if_neg h]

/-! ## Primitive round trips: write then read at the same tag -/

theorem toI8_toU8 (v : Int) (h1 : -128 ≤ v) (h2 : v < 128) :
    toI 8 (toU 8 v % 256) = v := by
  rw [Nat.mod_eq_of_lt (show toU 8 v < 256 from toU_lt 8 v)]
  exact toI_toU 8 v (by omega) (by norm_num; omega) (by norm_num; omega)

theorem toI16_toU16 (v : Int) (h1 : -32768 ≤ v) (h2 : v < 32768) :
    toI 16 (toU 16 v % 65536) = v := by
  rw [Nat.mod_eq_of_lt (show toU 16 v < 65536 from toU_lt 16 v)]
  exact toI_toU 16 v (by omega) (by norm_num; omega) (by norm_num; omega)

theorem toI32_toU32 (v : Int) (h1 : -2147483648 ≤ v) (h2 : v < 2147483648) :
    toI 32 (toU 32 v % 4294967296) = v := by
  rw [Nat.mod_eq_of_lt (show toU 32 v < 4294967296 from toU_lt 32 v)]
  exact toI_toU 32 v (by omega) (by norm_num; omega) (by norm_num; omega)

theorem toI64_toU64 (v : Int) (h1 : -9223372036854775808 ≤ v)
    (h2 : v < 9223372036854775808) : toI 64 (toU 64 v % 18446744073709551616) = v := by
  rw [Nat.mod_eq_of_lt (show toU 64 v < 18446744073709551616 from toU_lt 64 v)]
  exact toI_toU 64 v (by omega) (by norm_num; omega) (by norm_num; omega)

theorem readInt8_writeInt8 (v : Int) (tag : Nat) (req : Bool) (rest : List Nat)
    (h1 : -128 ≤ v) (h2 : v < 128) (ht : tag < 256) :
    readInt8 tag req (writeInt8 v tag ++ rest) = some (v, rest) := by
  unfold readInt8
  by_cases h0 : v = 0
  · subst h0
    rw [writeInt8_zero, skipToTag_found _ _ _ _ (by omega) (by decide) ht]
  · rw [writeInt8_ne v tag h0, List.append_assoc,
      skipToTag_found _ _ _ _ (by omega) (by decide) ht]
    simp [readBE_bytesBE, toI8_toU8 v h1 h2]

theorem readInt16_writeInt16 (v : Int) (tag : Nat) (req : Bool) (rest : List Nat)
    (h1 : -32768 ≤ v) (h2 : v < 32768) (ht : tag < 256) :
    readInt16 tag req (writeInt16 v tag ++ rest) = some (v, rest) := by
  unfold readInt16
  by_cases h8 : -128 ≤ v ∧ v ≤ 127
  · rw [writeInt16_small v tag h8]
    by_cases h0 : v = 0
    · subst h0
      rw [writeInt8_zero, skipToTag_found _ _ _ _ (by omega) (by decide) ht]
    · rw [writeInt8_ne v tag h0, List.append_assoc,
        skipToTag_found _ _ _ _ (by omega) (by decide) ht]
      simp [readBE_bytesBE, toI8_toU8 v h8.1 (by omega)]
  · rw [writeInt16_big v tag h8, List.append_assoc,
      skipToTag_found _ _ _ _ (by omega) (by decide) ht]
    simp [readBE_bytesBE, toI16_toU16 v h1 h2]

theorem readInt32F_writeInt32 (f : Nat) (v : Int) (tag : Nat) (req : Bool)
    (rest : List Nat) (hf : 0 < f)
    (h1 : -2147483648 ≤ v) (h2 : v < 2147483648) (ht : tag < 256) :
    readInt32F f tag req (writeInt32 v tag ++ rest) = some (v, rest) := by
  unfold readInt32F
  by_cases h16 : -32768 ≤ v ∧ v ≤ 32767
  · rw [writeInt32_small v tag h16]
    by_cases h8 : -128 ≤ v ∧ v ≤ 127
    · rw [writeInt16_small v tag h8]
      by_cases h0 : v = 0
      · subst h0
        rw [writeInt8_zero, skipToTag_found _ _ _ _ hf (by decide) ht]
      · rw [writeInt8_ne v tag h0, List.append_assoc,
          skipToTag_found _ _ _ _ hf (by decide) ht]
        simp [readBE_bytesBE, toI8_toU8 v h8.1 (by omega)]
    · rw [writeInt16_big v tag h8, List.append_assoc,
        skipToTag_found _ _ _ _ hf (by decide) ht]
      simp [readBE_bytesBE, toI16_toU16 v h16.1 (by omega)]
  · rw [writeInt32_big v tag h16, List.append_assoc,
      skipToTag_found _ _ _ _ hf (by decide) ht]
    simp [readBE_bytesBE, toI32_toU32 v h1 h2]

theorem readInt32_writeInt32 (v : Int) (tag : Nat) (req : Bool) (rest : List Nat)
    (h1 : -2147483648 ≤ v) (h2 : v < 2147483648) (ht : tag < 256) :
    readInt32 tag req (writeInt32 v tag ++ rest) = some (v, rest) := by
  unfold readInt32
  exact readInt32F_writeInt32 _ v tag req rest (by omega) h1 h2 ht

theorem readInt64_writeInt64 (v : Int) (tag : Nat) (req : Bool) (rest : List Nat)
    (h1 : -9223372036854775808 ≤ v) (h2 : v < 9223372036854775808) (ht : tag < 256) :
    readInt64 tag req (writeInt64 v tag ++ rest) = some (v, rest) := by
  unfold readInt64
  by_cases h32 : -2147483648 ≤ v ∧ v ≤ 2147483647
  · rw [writeInt64_small v tag h32]
    by_cases h16 : -32768 ≤ v ∧ v ≤ 32767
    · rw [writeInt32_small v tag h16]
      by_cases h8 : -128 ≤ v ∧ v ≤ 127
      · rw [writeInt16_small v tag h8]
        by_cases h0 : v = 0
        · subst h0
          rw [writeInt8_zero, skipToTag_found _ _ _ _ (by omega) (by decide) ht]
        · rw [writeInt8_ne v tag h0, List.append_assoc,
            skipToTag_found _ _ _ _ (by omega) (by decide) ht]
          simp [readBE_bytesBE, toI8_toU8 v h8.1 (by omega)]
      · rw [writeInt16_big v tag h8, List.append_assoc,
          skipToTag_found _ _ _ _ (by omega) (by decide) ht]
        simp [readBE_bytesBE, toI16_toU16 v h16.1 (by omega)]
    · rw [writeInt32_big v tag h16, List.append_assoc,
        skipToTag_found _ _ _ _ (by omega) (by decide) ht]
      simp [readBE_bytesBE, toI32_toU32 v h32.1 (by omega)]
  · rw [writeInt64_big v tag h32, List.append_assoc,
      skipToTag_found _ _ _ _ (by omega) (by decide) ht]
    simp [readBE_bytesBE, toI64_toU64 v h1 h2]

theorem readBool_writeBool (v : Bool) (tag : Nat) (req : Bool) (rest : List Nat)
    (ht : tag < 256) :
    readBool tag req (writeBool v tag ++ rest) = some (v, rest) := by
  cases v
  · rw [show writeBool false tag = writeInt8 0 tag from rfl]
    unfold readBool
    rw [readInt8_writeInt8 0 tag req rest (by omega) (by omega) ht]
    simp
  · rw [show writeBool true tag = writeInt8 1 tag from rfl]
    unfold readBool
    rw [readInt8_writeInt8 1 tag req rest (by omega) (by omega) ht]
    simp

theorem readFloat_writeFloat (b : Nat) (tag : Nat) (req : Bool) (rest : List Nat)
    (hb : b < 2 ^ 32) (ht : tag < 256) :
    readFloat tag req (writeFloat b tag ++ rest) =
      some (if f32IsZero b then 0 else b, rest) := by
  unfold readFloat
  by_cases hz : f32IsZero b
  · rw [writeFloat_zero b tag hz, skipToTag_found _ _ _ _ (by omega) (by decide) ht,
      if_pos hz]
  · have hb' : b < 4294967296 := by omega
    rw [writeFloat_ne b tag hz, List.append_assoc,
      skipToTag_found _ _ _ _ (by omega) (by decide) ht, if_neg hz]
    simp [readBE_bytesBE, Nat.mod_eq_of_lt hb']

theorem readDouble_writeDouble (b : Nat) (tag : Nat) (req : Bool) (rest : List Nat)
    (hb : b < 2 ^ 64) (ht : tag < 256) :
    readDouble tag req (writeDouble b tag ++ rest) =
      some (if f64IsZero b then 0 else b, rest) := by
  unfold readDouble
  by_cases hz : f64IsZero b
  · rw [writeDouble_zero b tag hz, skipToTag_found _ _ _ _ (by omega) (by decide) ht,
      if_pos hz]
  · have hb' : b < 18446744073709551616 := by omega
    rw [writeDouble_ne b tag hz, List.append_assoc,
      skipToTag_found _ _ _ _ (by omega) (by decide) ht, if_neg hz]
    simp [readBE_bytesBE, Nat.mod_eq_of_lt hb']

theorem readString_writeString (s : List Nat) (tag : Nat) (req : Bool) (rest : List Nat)
    (hlen : s.length < 2 ^ 32) (hval : utf8Valid s = true) (ht : tag < 256) :
    readString tag req (writeString s tag ++ rest) = some (s, rest) := by
  unfold readString
  have htake : (s ++ rest).take s.length = s := List.take_left s rest
  have hdrop : (s ++ rest).drop s.length = rest := List.drop_left s rest
  have hle : s.length ≤ (s ++ rest).length := by
    rw [List.length_append]; omega
  by_cases hbig : s.length > 255
  · have h4 : s.length % 4294967296 = s.length := Nat.mod_eq_of_lt (by omega)
    rw [writeString_big s tag hbig, List.append_assoc, List.append_assoc,
      skipToTag_found _ _ _ _ (by omega) (by decide) ht]
    simp [readBE_bytesBE, h4, htake, hdrop, hval, Nat.le_add_right]
  · rw [writeString_small s tag hbig, List.append_assoc, List.append_assoc,
      skipToTag_found _ _ _ _ (by omega) (by decide) ht]
    have hmod : s.length % 256 = s.length := Nat.mod_eq_of_lt (by omega)
    simp [readU8, hmod, htake, hdrop, hle, hval]

theorem toU64_natCast (n : Nat) (h : n < 2 ^ 64) : toU 64 (n : Int) = n := by
  unfold toU
  have hlt : (n : Int) < 2 ^ 64 := by
    have : ((2 ^ 64 : Nat) : Int) = (2 : Int) ^ 64 := by norm_cast
    omega
  rw [Int.emod_eq_of_lt (by positivity) hlt]
  simp

theorem readBytes_writeBytes (bs : List Nat) (tag : Nat) (req : Bool) (rest : List Nat)
    (hlen : bs.length < 2 ^ 31) (ht : tag < 256) :
    readBytes tag req (writeBytes bs tag ++ rest) = some (bs, rest) := by
  unfold readBytes
  rw [writeBytes, usizeAsI32_eq bs.length hlen]
  simp only [List.append_assoc]
  rw [skipToTag_found _ _ _ _ (by omega) (by decide) ht]
  have hc1 : (-2147483648 : Int) ≤ (bs.length : Int) := by omega
  have hc2 : (bs.length : Int) < 2147483648 := by omega
  simp only [readHead_writeHead]
  rw [readInt32F_writeInt32 _ _ _ _ _ (by omega) hc1 hc2 (by omega)]
  have h64 : toU 64 (bs.length : Int) = bs.length := toU64_natCast bs.length (by omega)
  have htake : (bs ++ rest).take bs.length = bs := List.take_left bs rest
  have hdrop : (bs ++ rest).drop bs.length = rest := List.drop_left bs rest
  have hle : bs.length ≤ (bs ++ rest).length := by
    rw [List.length_append]; omega
  simp [h64, htake, hdrop, hle]

theorem readStringPairs_writeStringPairs (m : List (List Nat × List Nat))
    (rest : List Nat) (hwf : stringMapWf m) :
    readStringPairs m.length (writeStringPairs m ++ rest) = some (m, rest) := by
  induction m generalizing rest with
  | nil => simp [readStringPairs, writeStringPairs]
  | cons kv m' ih =>
    obtain ⟨k, v⟩ := kv
    have hk := hwf (k, v) (by simp)
    have hwf' : stringMapWf m' := fun x hx => hwf x (by simp [hx])
    simp only [writeStringPairs, List.length_cons, readStringPairs, List.append_assoc]
    rw [readString_writeString k 0 true _ hk.1 hk.2.1 (by omega)]
    simp [readString_writeString v 1 true (writeStringPairs m' ++ rest) hk.2.2.1
      hk.2.2.2 (by omega), ih rest hwf']

theorem readStringMap_writeStringMap (m : List (List Nat × List Nat)) (tag : Nat)
    (req : Bool) (rest : List Nat) (hsize : m.length < 2 ^ 31)
    (hwf : stringMapWf m) (ht : tag < 256) :
    readStringMap tag req (writeStringMap m tag ++ rest) = some (m, rest) := by
  unfold readStringMap readMapBegin
  rw [writeStringMap, usizeAsI32_eq m.length hsize]
  simp only [List.append_assoc]
  rw [skipToTag_found _ _ _ _ (by omega) (by decide) ht]
  have hc1 : (-2147483648 : Int) ≤ (m.length : Int) := by omega
  have hc2 : (m.length : Int) < 2147483648 := by omega
  simp only [reduceCtorEq, if_true]
  rw [readInt32F_writeInt32 _ _ _ _ _ (by omega) hc1 hc2 (by omega)]
  simp [Int.toNat_natCast, readStringPairs_writeStringPairs m rest hwf]

/-! ## Packet round trips -/

theorem beU32_bytesBE (n : Nat) (rest : List Nat) :
    beU32 (bytesBE 4 n ++ rest) = n % 2 ^ 32 := by
  simp only [bytesBE, beU32, List.cons_append, List.headI, List.drop_succ_cons,
    List.drop_zero]
  norm_num
  omega

theorem readFrom_writeTo_request (p : RequestPacket) (h : p.wf) :
    RequestPacket.readFrom p.writeTo = some p := by
  obtain ⟨ha, hb, hc, hd, he, hf, hg, hh, hi, hj, hk, hl, hm, hn, ho, hp, hq, hr, hs⟩ := h
  simp only [RequestPacket.writeTo, List.append_assoc, RequestPacket.readFrom]
  rw [readInt16_writeInt16 p.iVersion 1 false _ ha hb (by omega)]
  simp only [Option.bind, Bind.bind]
  rw [readInt8_writeInt8 p.cPacketType 2 false _ hc hd (by omega)]
  simp only [Option.bind, Bind.bind]
  rw [readInt32_writeInt32 p.iMessageType 3 false _ he hf (by omega)]
  simp only [Option.bind, Bind.bind]
  rw [readInt32_writeInt32 p.iRequestId 4 false _ hg hh (by omega)]
  simp only [Option.bind, Bind.bind]
  rw [readString_writeString p.sServantName 5 false _ hi hj (by omega)]
  simp only [Option.bind, Bind.bind]
  rw [readString_writeString p.sFuncName 6 false _ hk hl (by omega)]
  simp only [Option.bind, Bind.bind]
  rw [readBytes_writeBytes p.sBuffer 7 false _ hm (by omega)]
  simp only [Option.bind, Bind.bind]
  rw [readInt32_writeInt32 p.iTimeout 8 false _ hn ho (by omega)]
  simp only [Option.bind, Bind.bind]
  rw [readStringMap_writeStringMap p.context 9 false _ hp hq (by omega)]
  simp only [Option.bind, Bind.bind]
  rw [show writeStringMap p.status 10 = writeStringMap p.status 10 ++ [] from
    (List.append_nil _).symm]
  rw [readStringMap_writeStringMap p.status 10 false [] hr hs (by omega)]
  simp only [Option.bind, Bind.bind]
  rfl

theorem readFrom_writeTo_response (p : ResponsePacket) (h : p.wf) :
    ResponsePacket.readFrom p.writeTo = some p := by
  obtain ⟨ha, hb, hc, hd, he, hf, hg, hh, hi, hj, hk, hl, hm, hn, ho, hp, hq⟩ := h
  simp only [ResponsePacket.writeTo, List.append_assoc, ResponsePacket.readFrom]
  rw [readInt16_writeInt16 p.iVersion 1 false _ ha hb (by omega)]
  simp only [Option.bind, Bind.bind]
  rw [readInt8_writeInt8 p.cPacketType 2 false _ hc hd (by omega)]
  simp only [Option.bind, Bind.bind]
  rw [readInt32_writeInt32 p.iRequestId 3 false _ he hf (by omega)]
  simp only [Option.bind, Bind.bind]
  rw [readInt32_writeInt32 p.iMessageType 4 false _ hg hh (by omega)]
  simp only [Option.bind, Bind.bind]
  rw [readInt32_writeInt32 p.iRet 5 false _ hi hj (by omega)]
  simp only [Option.bind, Bind.bind]
  rw [readBytes_writeBytes p.sBuffer 6 false _ hk (by omega)]
  simp only [Option.bind, Bind.bind]
  rw [readStringMap_writeStringMap p.status 7 false _ hl hm (by omega)]
  simp only [Option.bind, Bind.bind]
  rw [readString_writeString p.sResultDesc 8 false _ hn ho (by omega)]
  simp only [Option.bind, Bind.bind]
  rw [show writeStringMap p.context 9 = writeStringMap p.context 9 ++ [] from
    (List.append_nil _).symm]
  rw [readStringMap_writeStringMap p.context 9 false [] hp hq (by omega)]
  simp only [Option.bind, Bind.bind]
  rfl

theorem decode_encode_request (p : RequestPacket) (h : p.wf)
    (hlen : p.writeTo.length + 4 < 2 ^ 32) :
    RequestPacket.decode p.encode = some p := by
  unfold RequestPacket.decode RequestPacket.encode toBytesWithLength
  have hlength : (bytesBE 4 (p.writeTo.length + 4) ++ p.writeTo).length =
      p.writeTo.length + 4 := by
    rw [List.length_append, bytesBE_length]; omega
  have h4 : 4 ≤ (bytesBE 4 (p.writeTo.length + 4) ++ p.writeTo).length := by
    rw [hlength]; omega
  rw [if_pos h4]
  have hbe : beU32 (bytesBE 4 (p.writeTo.length + 4) ++ p.writeTo) =
      p.writeTo.length + 4 := by
    rw [beU32_bytesBE]; omega
  rw [hbe, hlength, if_pos rfl]
  have hdrop : (bytesBE 4 (p.writeTo.length + 4) ++ p.writeTo).drop 4 = p.writeTo := by
    have h4' : (bytesBE 4 (p.writeTo.length + 4)).length = 4 := bytesBE_length 4 _
    conv_lhs => rw [← h4']
    exact List.drop_left _ _
  rw [hdrop]
  exact readFrom_writeTo_request p h

theorem decode_encode_response (p : ResponsePacket) (h : p.wf)
    (hlen : p.writeTo.length + 4 < 2 ^ 32) :
    ResponsePacket.decode p.encode = some p := by
  unfold ResponsePacket.decode ResponsePacket.encode toBytesWithLength
  have hlength : (bytesBE 4 (p.writeTo.length + 4) ++ p.writeTo).length =
      p.writeTo.length + 4 := by
    rw [List.length_append, bytesBE_length]; omega
  have h4 : 4 ≤ (bytesBE 4 (p.writeTo.length + 4) ++ p.writeTo).length := by
    rw [hlength]; omega
  rw [if_pos h4]
  have hbe : beU32 (bytesBE 4 (p.writeTo.length + 4) ++ p.writeTo) =
      p.writeTo.length + 4 := by
    rw [beU32_bytesBE]; omega
  rw [hbe, hlength, if_pos rfl]
  have hdrop : (bytesBE 4 (p.writeTo.length + 4) ++ p.writeTo).drop 4 = p.writeTo := by
    have h4' : (bytesBE 4 (p.writeTo.length + 4)).length = 4 := bytesBE_length 4 _
    conv_lhs => rw [← h4']
    exact List.drop_left _ _
  rw [hdrop]
  exact readFrom_writeTo_response p h

theorem writeInt16_head_byte (v : Int) :
    ∃ b l, writeInt16 v 1 = b :: l ∧ 16 ≤ b ∧ b ≤ 29 := by
  by_cases h8 : -128 ≤ v ∧ v ≤ 127
  · rw [writeInt16_small v 1 h8]
    by_cases h0 : v = 0
    · subst h0
      rw [writeInt8_zero]
      exact ⟨28, [], rfl, by omega, by omega⟩
    · rw [writeInt8_ne v 1 h0]
      exact ⟨16, bytesBE 1 (toU 8 v), rfl, by omega, by omega⟩
  · rw [writeInt16_big v 1 h8]
    exact ⟨17, bytesBE 2 (toU 16 v), rfl, by omega, by omega⟩

theorem beU32_cons_ge (b : Nat) (l : List Nat) : b * 2 ^ 24 ≤ beU32 (b :: l) := by
  unfold beU32
  simp only [List.headI, List.drop_succ_cons, List.drop_zero]
  omega

theorem decode_noPrefix_request (p : RequestPacket) (h : p.wf)
    (hsmall : p.writeTo.length < 2 ^ 28) :
    RequestPacket.decode p.writeTo = some p := by
  unfold RequestPacket.decode
  by_cases h4 : 4 ≤ p.writeTo.length
  · rw [if_pos h4]
    obtain ⟨b, l, hbl, hb16, _⟩ := writeInt16_head_byte p.iVersion
    have hfirst : p.writeTo = b :: (l ++ (writeInt8 p.cPacketType 2 ++
        writeInt32 p.iMessageType 3 ++ writeInt32 p.iRequestId 4 ++
        writeString p.sServantName 5 ++ writeString p.sFuncName 6 ++
        writeBytes p.sBuffer 7 ++ writeInt32 p.iTimeout 8 ++
        writeStringMap p.context 9 ++ writeStringMap p.status 10)) := by
      show RequestPacket.writeTo p = _
      rw [RequestPacket.writeTo]
      simp only [List.append_assoc, hbl, List.cons_append]
    have hge := beU32_cons_ge b (l ++ (writeInt8 p.cPacketType 2 ++
        writeInt32 p.iMessageType 3 ++ writeInt32 p.iRequestId 4 ++
        writeString p.sServantName 5 ++ writeString p.sFuncName 6 ++
        writeBytes p.sBuffer 7 ++ writeInt32 p.iTimeout 8 ++
        writeStringMap p.context 9 ++ writeStringMap p.status 10))
    rw [← hfirst] at hge
    have hne : ¬ beU32 p.writeTo = p.writeTo.length := by omega
    rw [if_neg hne]
    exact readFrom_writeTo_request p h
  · rw [if_neg h4]
    exact readFrom_writeTo_request p h

theorem decode_noPrefix_response (p : ResponsePacket) (h : p.wf)
    (hsmall : p.writeTo.length < 2 ^ 28) :
    ResponsePacket.decode p.writeTo = some p := by
  unfold ResponsePacket.decode
  by_cases h4 : 4 ≤ p.writeTo.length
  · rw [if_pos h4]
    obtain ⟨b, l, hbl, hb16, _⟩ := writeInt16_head_byte p.iVersion
    have hfirst : p.writeTo = b :: (l ++ (writeInt8 p.cPacketType 2 ++
        writeInt32 p.iRequestId 3 ++ writeInt32 p.iMessageType 4 ++
        writeInt32 p.iRet 5 ++ writeBytes p.sBuffer 6 ++
        writeStringMap p.status 7 ++ writeString p.sResultDesc 8 ++
        writeStringMap p.context 9)) := by
      show ResponsePacket.writeTo p = _
      rw [ResponsePacket.writeTo]
      simp only [List.append_assoc, hbl, List.cons_append]
    have hge := beU32_cons_ge b (l ++ (writeInt8 p.cPacketType 2 ++
        writeInt32 p.iRequestId 3 ++ writeInt32 p.iMessageType 4 ++
        writeInt32 p.iRet 5 ++ writeBytes p.sBuffer 6 ++
        writeStringMap p.status 7 ++ writeString p.sResultDesc 8 ++
        writeStringMap p.context 9))
    rw [← hfirst] at hge
    have hne : ¬ beU32 p.writeTo = p.writeTo.length := by omega
    rw [if_neg hne]
    exact readFrom_writeTo_response p h
  · rw [if_neg h4]
    exact readFrom_writeTo_response p h

/-! ## Skip correctness: supporting structure of encodings -/

theorem tyOf_ne_structEnd (v : TarsValue) : tyOf v ≠ TarsType.StructEnd := by
  cases v with
  | vInt x =>
    simp only [tyOf]
    unfold intTy
    repeat' split
    all_goals decide
  | vFloat b => simp only [tyOf]; split <;> decide
  | vDouble b => simp only [tyOf]; split <;> decide
  | vString s => simp only [tyOf]; split <;> decide
  | vBytes bs => simp only [tyOf]; decide
  | vMap es => simp only [tyOf]; decide
  | vList xs => simp only [tyOf]; decide
  | vStruct fs => simp only [tyOf]; decide

theorem writeInt64_head_payload (v : Int) (tag : Nat) :
    writeInt64 v tag = writeHead (intTy v) tag ++ intPayload v := by
  unfold intTy intPayload
  by_cases h32 : -2147483648 ≤ v ∧ v ≤ 2147483647
  · rw [writeInt64_small v tag h32]
    by_cases h16 : -32768 ≤ v ∧ v ≤ 32767
    · rw [writeInt32_small v tag h16]
      by_cases h8 : -128 ≤ v ∧ v ≤ 127
      · rw [writeInt16_small v tag h8]
        by_cases h0 : v = 0
        · rw [if_pos h0, if_pos h0, h0, writeInt8_zero, List.append_nil]
        · rw [if_neg h0, if_neg h0, if_pos h8, if_pos h8, writeInt8_ne v tag h0]
      · rw [writeInt16_big v tag h8]
        have h0 : ¬ v = 0 := by rintro rfl; exact h8 (by norm_num)
        rw [if_neg h0, if_neg h0, if_neg h8, if_neg h8, if_pos h16, if_pos h16]
    · rw [writeInt32_big v tag h16]
      have h0 : ¬ v = 0 := by rintro rfl; exact h16 (by norm_num)
      have h8 : ¬ (-128 ≤ v ∧ v ≤ 127) := by rintro ⟨a, b⟩; exact h16 ⟨by omega, by omega⟩
      rw [if_neg h0, if_neg h0, if_neg h8, if_neg h8, if_neg h16, if_neg h16,
        if_pos h32, if_pos h32]
  · rw [writeInt64_big v tag h32]
    have h0 : ¬ v = 0 := by rintro rfl; exact h32 (by norm_num)
    have h8 : ¬ (-128 ≤ v ∧ v ≤ 127) := by rintro ⟨a, b⟩; exact h32 ⟨by omega, by omega⟩
    have h16 : ¬ (-32768 ≤ v ∧ v ≤ 32767) := by
      rintro ⟨a, b⟩; exact h32 ⟨by omega, by omega⟩
    rw [if_neg h0, if_neg h0, if_neg h8, if_neg h8, if_neg h16, if_neg h16,
      if_neg h32, if_neg h32]

mutual

theorem encodeVal_head_payload (v : TarsValue) (tag : Nat) :
    encodeVal v tag = writeHead (tyOf v) tag ++ payloadV v := by
  cases v with
  | vInt x =>
    rw [encodeVal, payloadV, tyOf]
    exact writeInt64_head_payload x tag
  | vFloat b =>
    rw [encodeVal, payloadV, tyOf, writeFloat]
    split
    · rw [List.append_nil]
    · rfl
  | vDouble b =>
    rw [encodeVal, payloadV, tyOf, writeDouble]
    split
    · rw [List.append_nil]
    · rfl
  | vString s =>
    rw [encodeVal, payloadV, tyOf, writeString]
    split
    · rw [List.append_assoc]
    · rw [List.append_assoc]
  | vBytes bs =>
    rw [encodeVal, payloadV, tyOf, writeBytes]
    simp only [List.append_assoc]
  | vMap es =>
    rw [encodeVal, payloadV, tyOf, encodePairs_eq_p es]
    simp only [List.append_assoc]
  | vList xs =>
    rw [encodeVal, payloadV, tyOf, encodeItems_eq_p xs]
    simp only [List.append_assoc]
  | vStruct fs =>
    rw [encodeVal, payloadV, tyOf, encodeFields_eq_p fs]
    simp only [List.append_assoc]

theorem encodePairs_eq_p (es : List (TarsValue × TarsValue)) :
    encodePairs es = encodePairsP es := by
  cases es with
  | nil => rfl
  | cons kv rest =>
    obtain ⟨k, v⟩ := kv
    rw [encodePairs, encodePairsP, encodeVal_head_payload k 0,
      encodeVal_head_payload v 1, encodePairs_eq_p rest]
    simp only [List.append_assoc]

theorem encodeItems_eq_p (xs : List TarsValue) :
    encodeItems xs = encodeItemsP xs := by
  cases xs with
  | nil => rfl
  | cons x rest =>
    rw [encodeItems, encodeItemsP, encodeVal_head_payload x 0, encodeItems_eq_p rest]

theorem encodeFields_eq_p (fs : List (Nat × TarsValue)) :
    encodeFields fs = encodeFieldsP fs := by
  cases fs with
  | nil => rfl
  | cons tv rest =>
    obtain ⟨t, v⟩ := tv
    rw [encodeFields, encodeFieldsP, encodeVal_head_payload v t, encodeFields_eq_p rest]

end

/-! ## Skip correctness: the main induction -/

mutual

theorem skipField_payload (v : TarsValue) (F : Nat) (rest : List Nat)
    (hwf : wfV v = true) (hF : fuelV v ≤ F) :
    skipField F (tyOf v) (payloadV v ++ rest) = some rest := by
  obtain ⟨f, rfl⟩ : ∃ f, F = f + 1 := by
    refine ⟨F - 1, ?_⟩
    have h2 : 2 ≤ fuelV v := by
      cases v <;> simp [fuelV]
    omega
  cases v with
  | vInt x =>
    simp only [tyOf, payloadV]
    unfold intTy intPayload
    by_cases h0 : x = 0
    · rw [if_pos h0, if_pos h0, List.nil_append, skipField.eq_def]
    · rw [if_neg h0, if_neg h0]
      by_cases h8 : -128 ≤ x ∧ x ≤ 127
      · rw [if_pos h8, if_pos h8, skipField.eq_def]
        simp [readBE_bytesBE]
      · rw [if_neg h8, if_neg h8]
        by_cases h16 : -32768 ≤ x ∧ x ≤ 32767
        · rw [if_pos h16, if_pos h16, skipField.eq_def]
          simp [readBE_bytesBE]
        · rw [if_neg h16, if_neg h16]
          by_cases h32 : -2147483648 ≤ x ∧ x ≤ 2147483647
          · rw [if_pos h32, if_pos h32, skipField.eq_def]
            simp [readBE_bytesBE]
          · rw [if_neg h32, if_neg h32, skipField.eq_def]
            simp [readBE_bytesBE]
  | vFloat b =>
    simp only [tyOf, payloadV]
    by_cases hz : f32IsZero b
    · rw [if_pos hz, if_pos hz, List.nil_append, skipField.eq_def]
    · rw [if_neg hz, if_neg hz, skipField.eq_def]
      simp [readBE_bytesBE]
  | vDouble b =>
    simp only [tyOf, payloadV]
    by_cases hz : f64IsZero b
    · rw [if_pos hz, if_pos hz, List.nil_append, skipField.eq_def]
    · rw [if_neg hz, if_neg hz, skipField.eq_def]
      simp [readBE_bytesBE]
  | vString str =>
    simp only [wfV, decide_eq_true_eq] at hwf
    simp only [tyOf, payloadV]
    by_cases hbig : str.length > 255
    · rw [if_pos hbig, if_pos hbig, List.append_assoc, skipField.eq_def]
      have h4 : str.length % 4294967296 = str.length := Nat.mod_eq_of_lt (by omega)
      simp [readBE_bytesBE, h4, List.drop_left]
    · rw [if_neg hbig, if_neg hbig, List.append_assoc, skipField.eq_def]
      have hmod : str.length % 256 = str.length := Nat.mod_eq_of_lt (by omega)
      simp [readU8, hmod, List.drop_left]
  | vBytes bs =>
    simp only [wfV, decide_eq_true_eq] at hwf
    simp only [tyOf, payloadV, List.append_assoc]
    have hc1 : (-2147483648 : Int) ≤ (bs.length : Int) := by omega
    have hc2 : (bs.length : Int) < 2147483648 := by omega
    rw [skipField.eq_def]
    simp only [readHead_writeHead]
    rw [usizeAsI32_eq bs.length hwf,
      readInt32F_writeInt32 f _ 0 true _ (by simp [fuelV] at hF; omega) hc1 hc2 (by omega)]
    simp [toU64_natCast bs.length (by omega), List.drop_left]
  | vMap es =>
    simp only [wfV, Bool.and_eq_true, decide_eq_true_eq] at hwf
    simp only [fuelV] at hF
    simp only [tyOf, payloadV, List.append_assoc]
    have hc1 : (-2147483648 : Int) ≤ (es.length : Int) := by omega
    have hc2 : (es.length : Int) < 2147483648 := by omega
    rw [skipField.eq_def, usizeAsI32_eq es.length hwf.1]
    simp only [readInt32F_writeInt32 f ((es.length : Nat) : Int) 0 true
      (encodePairsP es ++ rest) (by omega) hc1 hc2 (by omega), Int.toNat_natCast]
    exact skipPairs_encode es f rest hwf.2 (by omega)
  | vList xs =>
    simp only [wfV, Bool.and_eq_true, decide_eq_true_eq] at hwf
    simp only [fuelV] at hF
    simp only [tyOf, payloadV, List.append_assoc]
    have hc1 : (-2147483648 : Int) ≤ (xs.length : Int) := by omega
    have hc2 : (xs.length : Int) < 2147483648 := by omega
    rw [skipField.eq_def, usizeAsI32_eq xs.length hwf.1]
    simp only [readInt32F_writeInt32 f ((xs.length : Nat) : Int) 0 true
      (encodeItemsP xs ++ rest) (by omega) hc1 hc2 (by omega), Int.toNat_natCast]
    exact skipItems_encode xs f rest hwf.2 (by omega)
  | vStruct fs =>
    simp only [wfV] at hwf
    simp only [fuelV] at hF
    simp only [tyOf, payloadV, List.append_assoc]
    rw [skipField.eq_def]
    exact skipStruct_encode fs f rest hwf (by omega)

theorem skipPairs_encode (es : List (TarsValue × TarsValue)) (F : Nat)
    (rest : List Nat) (hwf : wfPairs es = true) (hF : fuelPairs es ≤ F) :
    skipPairs F es.length (encodePairsP es ++ rest) = some rest := by
  cases es with
  | nil =>
    rw [skipPairs.eq_def]
    simp [encodePairsP]
  | cons kv es' =>
    obtain ⟨k, v⟩ := kv
    simp only [wfPairs, Bool.and_eq_true] at hwf
    simp only [fuelPairs] at hF
    rw [skipPairs.eq_def]
    simp only [List.length_cons, encodePairsP, List.append_assoc, readHead_writeHead]
    rw [skipField_payload k F _ hwf.1.1 (by omega)]
    simp only [readHead_writeHead]
    rw [skipField_payload v F _ hwf.1.2 (by omega)]
    exact skipPairs_encode es' F rest hwf.2 (by omega)

theorem skipItems_encode (xs : List TarsValue) (F : Nat) (rest : List Nat)
    (hwf : wfItems xs = true) (hF : fuelItems xs ≤ F) :
    skipItems F xs.length (encodeItemsP xs ++ rest) = some rest := by
  cases xs with
  | nil =>
    rw [skipItems.eq_def]
    simp [encodeItemsP]
  | cons x xs' =>
    simp only [wfItems, Bool.and_eq_true] at hwf
    simp only [fuelItems] at hF
    rw [skipItems.eq_def]
    simp only [List.length_cons, encodeItemsP, List.append_assoc, readHead_writeHead]
    rw [skipField_payload x F _ hwf.1 (by omega)]
    exact skipItems_encode xs' F rest hwf.2 (by omega)

theorem skipStruct_encode (fs : List (Nat × TarsValue)) (F : Nat) (rest : List Nat)
    (hwf : wfFields fs = true) (hF : 1 + fuelFields fs ≤ F) :
    skipToStructEnd F (encodeFieldsP fs ++ (writeHead TarsType.StructEnd 0 ++ rest)) =
      some rest := by
  obtain ⟨f, rfl⟩ : ∃ f, F = f + 1 := ⟨F - 1, by omega⟩
  cases fs with
  | nil =>
    simp only [encodeFieldsP, List.nil_append]
    obtain ⟨b, l, hbl⟩ : ∃ b l, writeHead TarsType.StructEnd 0 ++ rest = b :: l := by
      unfold writeHead
      split <;> simp
    rw [skipToStructEnd.eq_def, hbl, ← hbl, readHead_writeHead]
    simp [hbl]
  | cons tv fs' =>
    obtain ⟨t, v⟩ := tv
    simp only [wfFields, Bool.and_eq_true] at hwf
    simp only [fuelFields] at hF
    simp only [encodeFieldsP, List.append_assoc]
    obtain ⟨b, l, hbl⟩ : ∃ b l,
        writeHead (tyOf v) t ++ (payloadV v ++ (encodeFieldsP fs' ++
          (writeHead TarsType.StructEnd 0 ++ rest))) = b :: l := by
      unfold writeHead
      split <;> simp
    rw [skipToStructEnd.eq_def, hbl, ← hbl, readHead_writeHead]
    simp only [hbl, if_neg (tyOf_ne_structEnd v)]
    rw [skipField_payload v f _ hwf.1 (by omega)]
    exact skipStruct_encode fs' f rest hwf.2 (by omega)

end

/-! ## Claim theorems -/

theorem toU_toI (w : Nat) (v : Nat) (h : v < 2 ^ w) :
    toU w (toI w v) = v := by
  have hcast : ((2 ^ w : Nat) : Int) = (2 : Int) ^ w := by norm_cast
  unfold toI toU
  split
  · rw [Int.emod_eq_of_lt (by omega) (by omega)]
    simp
  · have hmod : ((v : Int) - 2 ^ w) % 2 ^ w = (v : Int) % 2 ^ w := by
      rw [Int.sub_emod]
      simp
    rw [hmod, Int.emod_eq_of_lt (by omega) (by omega)]
    simp

/-- C2 (counterexample): a declared total-length of exactly 4 (length prefix
only, empty body) is NOT rejected: `parse_package` accepts it as a complete
frame `(4, Full)`, contradicting the claim that it is rejected as `Error`. -/
theorem claim_C2_counterexample :
    parsePackage [0, 0, 0, 4] = (4, PackageStatus.Full) ∧
      parsePackage [0, 0, 0, 4] ≠ (0, PackageStatus.Error) := by
  constructor
  · decide
  · decide

/-- C2 (amended): `parse_package` returns `Less` when fewer than 4 bytes are
available, `Error` when the declared big-endian total-length is below 4 or
above 100*1024*1024, `Less` when the length is in range but the slice is
shorter, and otherwise `Full` with the declared length — in particular a
declared length of exactly 4 (empty body) is accepted as a complete frame. -/
theorem claim_C2 (data : List Nat) :
    (data.length < 4 → parsePackage data = (0, PackageStatus.Less)) ∧
    (4 ≤ data.length → (beU32 data < 4 ∨ beU32 data > MAX_PACKAGE_LENGTH) →
      parsePackage data = (0, PackageStatus.Error)) ∧
    (4 ≤ data.length → 4 ≤ beU32 data → beU32 data ≤ MAX_PACKAGE_LENGTH →
      data.length < beU32 data → parsePackage data = (0, PackageStatus.Less)) ∧
    (4 ≤ data.length → 4 ≤ beU32 data → beU32 data ≤ MAX_PACKAGE_LENGTH →
      beU32 data ≤ data.length → parsePackage data = (beU32 data, PackageStatus.Full)) := by
  refine ⟨fun h => ?_, fun h4 he => ?_, fun h4 hl hu hs => ?_, fun h4 hl hu hs => ?_⟩
  · rw [parsePackage, if_pos h]
  · rw [parsePackage, if_neg (by omega), if_pos (by omega)]
  · rw [parsePackage, if_neg (by omega), if_neg (by omega), if_pos (by omega)]
  · rw [parsePackage, if_neg (by omega), if_neg (by omega), if_neg (by omega)]

/-- C2 (witness): the three regimes at concrete inputs. -/
theorem claim_C2_witness :
    parsePackage [0, 0, 1] = (0, PackageStatus.Less) ∧
    parsePackage [6, 64, 0, 1] = (0, PackageStatus.Error) ∧
    parsePackage [0, 0, 0, 8, 1, 2, 3, 4] = (8, PackageStatus.Full) := by
  refine ⟨(claim_C2 [0, 0, 1]).1 (by decide),
    (claim_C2 [6, 64, 0, 1]).2.1 (by decide) (by decide), ?_⟩
  have h := (claim_C2 [0, 0, 0, 8, 1, 2, 3, 4]).2.2.2 (by decide) (by decide)
    (by decide) (by decide)
  simpa using h

/-- C3 (counterexample): the `TarsEncode for u8` instance casts to the
same-width signed type (`*self as i8`), so encoding the u8 value 200 at tag 0
yields the bytes `[0x00, 0xC8]`, not the promoted `write_int16(200)` bytes
`[0x01, 0x00, 0xC8]` the claim asserts. -/
theorem claim_C3_counterexample :
    tarsEncodeU8 200 0 = [0, 200] ∧ writeInt16 200 0 = [1, 0, 200] ∧
      tarsEncodeU8 200 0 ≠ writeInt16 200 0 := by
  refine ⟨by decide, by decide, by decide⟩

/-- C3 (amended): the `Buffer::write_uint8/16/32` methods do promote to the
next-larger signed type (`write_uint8 v = write_int16 (v as i16)` etc.), and
under that promotion every unsigned value — including values above the
same-width signed maximum — round-trips to itself when read back at the
promoted width; moreover even the same-width-casting `TarsEncode`/`TarsDecode`
instances round-trip every unsigned value (the cast is undone on decode),
although their bytes differ from the promoted encoding. -/
theorem claim_C3 :
    (∀ (v t : Nat) (req : Bool), v < 256 → t < 256 →
      writeUint8 v t = writeInt16 (v : Int) t ∧
      readInt16 t req (writeUint8 v t) = some ((v : Int), []) ∧
      tarsDecodeU8 t req (tarsEncodeU8 v t) = some (v, [])) ∧
    (∀ (v t : Nat) (req : Bool), v < 65536 → t < 256 →
      writeUint16 v t = writeInt32 (v : Int) t ∧
      readInt32 t req (writeUint16 v t) = some ((v : Int), []) ∧
      tarsDecodeU16 t req (tarsEncodeU16 v t) = some (v, [])) ∧
    (∀ (v t : Nat) (req : Bool), v < 4294967296 → t < 256 →
      writeUint32 v t = writeInt64 (v : Int) t ∧
      readInt64 t req (writeUint32 v t) = some ((v : Int), []) ∧
      tarsDecodeU32 t req (tarsEncodeU32 v t) = some (v, [])) := by
  refine ⟨fun v t req hv ht => ⟨rfl, ?_, ?_⟩, fun v t req hv ht => ⟨rfl, ?_, ?_⟩,
    fun v t req hv ht => ⟨rfl, ?_, ?_⟩⟩
  · have := readInt16_writeInt16 (v : Int) t req [] (by omega) (by omega) ht
    simpa [writeUint8] using this
  · unfold tarsDecodeU8 tarsEncodeU8
    have hm : v % 2 ^ 8 = v := Nat.mod_eq_of_lt (by omega)
    have hr : -128 ≤ toI 8 v ∧ toI 8 v < 128 := by
      unfold toI
      split <;> omega
    rw [hm]
    have := readInt8_writeInt8 (toI 8 v) t req [] hr.1 hr.2 ht
    simp only [List.append_nil] at this
    rw [this]
    simp [toU_toI 8 v (by omega)]
  · have := readInt32_writeInt32 (v : Int) t req [] (by omega) (by omega) ht
    simpa [writeUint16] using this
  · unfold tarsDecodeU16 tarsEncodeU16
    have hm : v % 2 ^ 16 = v := Nat.mod_eq_of_lt (by omega)
    have hr : -32768 ≤ toI 16 v ∧ toI 16 v < 32768 := by
      unfold toI
      split <;> omega
    rw [hm]
    have := readInt16_writeInt16 (toI 16 v) t req [] hr.1 hr.2 ht
    simp only [List.append_nil] at this
    rw [this]
    simp [toU_toI 16 v (by omega)]
  · have := readInt64_writeInt64 (v : Int) t req [] (by omega) (by omega) ht
    simpa [writeUint32] using this
  · unfold tarsDecodeU32 tarsEncodeU32
    have hm : v % 2 ^ 32 = v := Nat.mod_eq_of_lt (by omega)
    have hr : -2147483648 ≤ toI 32 v ∧ toI 32 v < 2147483648 := by
      unfold toI
      split <;> omega
    rw [hm]
    have := readInt32_writeInt32 (toI 32 v) t req [] hr.1 hr.2 ht
    simp only [List.append_nil] at this
    rw [this]
    simp [toU_toI 32 v (by omega)]

/-- C3 (witness): the u8 value 200 (above `i8::MAX`) round-trips both through
the promoted `write_uint8` path and the `TarsEncode`/`TarsDecode` path. -/
theorem claim_C3_witness :
    writeUint8 200 5 = writeInt16 (200 : Int) 5 ∧
    readInt16 5 false (writeUint8 200 5) = some ((200 : Int), []) ∧
    tarsDecodeU8 5 false (tarsEncodeU8 200 5) = some (200, []) :=
  claim_C3.1 200 5 false (by decide) (by decide)

/-- C8: writing any integer zero or any float/double zero bit pattern at a tag
`t < 15` emits the single byte `(t <<< 4) ||| 12`; in particular int64 0 at
tag 3 encodes as the byte `0x3C`, which reads back as int64 0 in one byte. -/
theorem claim_C8 :
    (∀ t : Nat, t < 15 →
      writeInt8 0 t = [t * 16 + 12] ∧ writeInt16 0 t = [t * 16 + 12] ∧
      writeInt32 0 t = [t * 16 + 12] ∧ writeInt64 0 t = [t * 16 + 12] ∧
      (∀ b : Nat, f32IsZero b = true → writeFloat b t = [t * 16 + 12]) ∧
      (∀ b : Nat, f64IsZero b = true → writeDouble b t = [t * 16 + 12])) ∧
    writeInt64 0 3 = [60] ∧ readInt64 3 true [60] = some (0, []) := by
  refine ⟨fun t ht => ?_, by decide, ?_⟩
  · have hz : writeHead TarsType.ZeroTag t = [t * 16 + 12] := by
      rw [writeHead, if_pos ht]
      rfl
    have h8 : writeInt8 0 t = [t * 16 + 12] := by rw [writeInt8_zero, hz]
    have h16 : writeInt16 0 t = [t * 16 + 12] := by
      rw [writeInt16_small 0 t (by norm_num), h8]
    have h32 : writeInt32 0 t = [t * 16 + 12] := by
      rw [writeInt32_small 0 t (by norm_num), h16]
    have h64 : writeInt64 0 t = [t * 16 + 12] := by
      rw [writeInt64_small 0 t (by norm_num), h32]
    refine ⟨h8, h16, h32, h64, fun b hb => ?_, fun b hb => ?_⟩
    · rw [writeFloat_zero b t hb, hz]
    · rw [writeDouble_zero b t hb, hz]
  · have h := readInt64_writeInt64 0 3 true [] (by norm_num) (by norm_num) (by norm_num)
    have he : writeInt64 0 3 ++ [] = [60] := by decide
    rw [he] at h
    exact h

/-- C8 (witness): zero elision at tag 3 and the float zero patterns. -/
theorem claim_C8_witness :
    writeInt8 0 3 = [60] ∧ writeInt64 0 3 = [60] ∧
    writeFloat (2 ^ 31) 3 = [60] ∧ writeDouble 0 3 = [60] := by
  have h := claim_C8.1 3 (by decide)
  exact ⟨h.1, h.2.2.2.1, h.2.2.2.2.1 (2 ^ 31) (by decide), h.2.2.2.2.2 0 (by decide)⟩

/-- C7: a fresh registry-node circuit breaker is available; one
`record_failure` (FAIL_THRESHOLD = 1) makes `is_available` false strictly
before RECOVER_INTERVAL (30 s) has elapsed since the circuit opened and true
(half-open probe) once it has; any `record_success` sets the available flag,
zeroes the consecutive-failure count, and makes `is_available` true
unconditionally. -/
theorem claim_C7 :
    (∀ t0 now : Int, (BreakerState.new t0).isAvailable now = true) ∧
    (∀ t0 t1 t2 : Int, t2 - t1 < REGISTRY_RECOVER_INTERVAL →
      ((BreakerState.new t0).recordFailure t1).1.isAvailable t2 = false) ∧
    (∀ t0 t1 t2 : Int, REGISTRY_RECOVER_INTERVAL ≤ t2 - t1 →
      ((BreakerState.new t0).recordFailure t1).1.isAvailable t2 = true) ∧
    (∀ (s : BreakerState) (now : Int),
      (s.recordSuccess now).available = true ∧ (s.recordSuccess now).failCount = 0 ∧
      ∀ t : Int, (s.recordSuccess now).isAvailable t = true) := by
  have hw : wrapAdd32 0 1 = 1 := by decide
  have hrf : ∀ t0 t1 : Int, ((BreakerState.new t0).recordFailure t1).1 =
      ⟨false, 1, t1, t0, t1⟩ := by
    intro t0 t1
    simp [BreakerState.new, BreakerState.recordFailure, hw, REGISTRY_FAIL_THRESHOLD]
  refine ⟨fun t0 now => ?_, fun t0 t1 t2 hlt => ?_, fun t0 t1 t2 hge => ?_,
    fun s now => ⟨rfl, rfl, fun t => ?_⟩⟩
  · simp [BreakerState.new, BreakerState.isAvailable]
  · rw [hrf t0 t1]
    simp only [REGISTRY_RECOVER_INTERVAL] at hlt
    simp only [BreakerState.isAvailable, Bool.false_eq_true, if_false,
      REGISTRY_RECOVER_INTERVAL]
    rw [if_neg (by omega)]
  · rw [hrf t0 t1]
    simp only [REGISTRY_RECOVER_INTERVAL] at hge
    simp only [BreakerState.isAvailable, Bool.false_eq_true, if_false,
      REGISTRY_RECOVER_INTERVAL]
    rw [if_pos (by omega)]
  · simp [BreakerState.recordSuccess, BreakerState.isAvailable]

/-- C7 (witness): open at time 100, still blocked at 129, probe allowed at
130; success restores availability. -/
theorem claim_C7_witness :
    ((BreakerState.new 0).recordFailure 100).1.isAvailable 129 = false ∧
    ((BreakerState.new 0).recordFailure 100).1.isAvailable 130 = true ∧
    ((BreakerState.new 0).recordSuccess 7).available = true :=
  ⟨claim_C7.2.1 0 100 129 (by decide), claim_C7.2.2.1 0 100 130 (by decide),
    (claim_C7.2.2.2 (BreakerState.new 0) 7).1⟩

theorem genValue_eq (k : Nat) (h : k < 1000000) : genValue k = (k : Int) + 1 := by
  have hstate : ∀ n : Nat, n ≤ 1000000 → genStateSeq n = (n : Int) := by
    intro n
    induction n with
    | zero => intro _; rfl
    | succ m ih =>
      intro hm
      have hc1 : ¬ ((m : Int) ≥ 2147483647 - 1) := by omega
      have hc2 : ¬ ((m : Int) + 1 = 0) := by omega
      have hgen : genRequestId (m : Int) = ((m : Int) + 1, (m : Int) + 1) := by
        simp only [genRequestId, reqNext, INT32_MAX]
        rw [if_neg hc1, if_pos hc2]
      rw [genStateSeq, ih (by omega), hgen]
      push_cast
      ring
  have hc1 : ¬ ((k : Int) ≥ 2147483647 - 1) := by omega
  have hc2 : ¬ ((k : Int) + 1 = 0) := by omega
  have hgen : genRequestId (k : Int) = ((k : Int) + 1, (k : Int) + 1) := by
    simp only [genRequestId, reqNext, INT32_MAX]
    rw [if_neg hc1, if_pos hc2]
  rw [genValue, hstate k (by omega), hgen]

/-- C9: the request-id allocator never returns 0; from any counter value it
returns the successor, except that at `INT32_MAX - 1` and above it wraps to
1; hence the first 10^6 sequential allocations from the initial counter 0
return the distinct non-zero values 1..10^6. -/
theorem claim_C9 :
    (∀ s : Int, (genRequestId s).1 ≠ 0) ∧
    (∀ s : Int, 0 ≤ s → s < INT32_MAX - 1 → genRequestId s = (s + 1, s + 1)) ∧
    (∀ s : Int, INT32_MAX - 1 ≤ s → genRequestId s = (1, 1)) ∧
    (∀ k : Nat, k < 1000000 → genValue k = (k : Int) + 1 ∧ genValue k ≠ 0) ∧
    (∀ j k : Nat, j < 1000000 → k < 1000000 → genValue j = genValue k → j = k) := by
  refine ⟨fun s => ?_, fun s h0 hlt => ?_, fun s hge => ?_,
    fun k hk => ⟨genValue_eq k hk, ?_⟩, fun j k hj hk he => ?_⟩
  · simp only [genRequestId, reqNext, INT32_MAX]
    by_cases hge : (2147483647 : Int) - 1 ≤ s
    · have hc : s ≥ 2147483647 - 1 := by omega
      rw [if_pos hc]
      norm_num
    · have hc : ¬ (s ≥ 2147483647 - 1) := by omega
      rw [if_neg hc]
      by_cases h0 : s + 1 = 0
      · have hne : ¬ (s + 1 ≠ 0) := by omega
        rw [if_neg hne, h0]
        norm_num
      · rw [if_pos h0]
        simpa using h0
  · simp only [INT32_MAX] at hlt
    simp only [genRequestId, reqNext, INT32_MAX]
    have hc : ¬ (s ≥ 2147483647 - 1) := by omega
    have hne : s + 1 ≠ 0 := by omega
    rw [if_neg hc, if_pos hne]
  · simp only [INT32_MAX] at hge
    simp only [genRequestId, reqNext, INT32_MAX]
    have hc : s ≥ 2147483647 - 1 := by omega
    rw [if_pos hc]
    norm_num
  · rw [genValue_eq k hk]
    omega
  · rw [genValue_eq j hj, genValue_eq k hk] at he
    omega

/-- C9 (witness): the first allocation returns 1, the millionth returns
10^6, and both are non-zero. -/
theorem claim_C9_witness :
    genRequestId 0 = (1, 1) ∧ genRequestId (INT32_MAX - 1) = (1, 1) ∧
    genValue 0 = 1 ∧ genValue 0 ≠ 0 := by
  refine ⟨claim_C9.2.1 0 (by norm_num) (by norm_num [INT32_MAX]),
    claim_C9.2.2.1 (INT32_MAX - 1) (by norm_num), ?_, ?_⟩
  · have h := (claim_C9.2.2.2.1 0 (by norm_num)).1
    simpa using h
  · exact (claim_C9.2.2.2.1 0 (by norm_num)).2

/-- C10: on an already-open breaker (available flag false), `record_failure`
changes only the consecutive-failure count and last-failure timestamp — the
available flag and `circuit_open_time` are untouched and the call returns
false — so `is_available` is unchanged by further failures: once
RECOVER_INTERVAL has elapsed since the circuit opened it stays true no matter
how many more failures are recorded. -/
theorem claim_C10 (s : BreakerState) (now : Int) (h : s.available = false) :
    ((s.recordFailure now).1.available = false ∧
      (s.recordFailure now).1.circuitOpenTime = s.circuitOpenTime ∧
      (s.recordFailure now).1.lastSuccessTime = s.lastSuccessTime ∧
      (s.recordFailure now).1.failCount = wrapAdd32 s.failCount 1 ∧
      (s.recordFailure now).1.lastFailTime = now ∧
      (s.recordFailure now).2 = false) ∧
    ∀ t : Int, (s.recordFailure now).1.isAvailable t = s.isAvailable t := by
  have hstate : s.recordFailure now =
      ⟨{ s with available := false, failCount := wrapAdd32 s.failCount 1, lastFailTime := now }, false⟩ := by
    simp only [BreakerState.recordFailure]
    by_cases hc : wrapAdd32 s.failCount 1 ≥ REGISTRY_FAIL_THRESHOLD
    · rw [if_pos hc]
      simp [h]
    · rw [if_neg hc]
      simp [h]
  rw [hstate]
  refine ⟨⟨rfl, rfl, rfl, rfl, rfl, rfl⟩, fun t => ?_⟩
  simp [BreakerState.isAvailable, h]

/-- C10 (witness): a breaker open since time 0 with two prior failures stays
open, keeps its opening time, and `is_available` is unchanged after a third
failure. -/
theorem claim_C10_witness :
    ((⟨false, 2, 50, 0, 40⟩ : BreakerState).recordFailure 60).1.available = false ∧
    ((⟨false, 2, 50, 0, 40⟩ : BreakerState).recordFailure 60).1.circuitOpenTime = 40 ∧
    ((⟨false, 2, 50, 0, 40⟩ : BreakerState).recordFailure 60).1.isAvailable 75 =
      (⟨false, 2, 50, 0, 40⟩ : BreakerState).isAvailable 75 := by
  have h := claim_C10 ⟨false, 2, 50, 0, 40⟩ 60 rfl
  exact ⟨h.1.1, h.1.2.1, h.2 75⟩

/-- C6 (counterexample): at a non-closed, active adapter state with
`fail_count = 2`, `send_count = 0`, a due 60 s check gate and no consecutive
failures, the claim's condition `fail / max(send,1) ≥ failRatio ∧
fail ≥ OVER_N` holds, yet `check_active` does not transition to inactive
(the code also requires `send_count > 0`). -/
theorem claim_C6_counterexample :
    specC6ActiveCond ⟨2, 0, 0, 0, 100, 0, 0, true, false⟩ 100 ∧
    (checkActive ⟨2, 0, 0, 0, 100, 0, 0, true, false⟩ 100).2.1 = false ∧
    (checkActive ⟨2, 0, 0, 0, 100, 0, 0, true, false⟩ 100).1.status = true := by
  have hck : checkActive ⟨2, 0, 0, 0, 100, 0, 0, true, false⟩ 100 =
      (⟨2, 0, 0, 0, 100, 0, 100, true, false⟩, false, false) := by
    unfold checkActive
    norm_num [FAIL_INTERVAL, FAIL_N, CHECK_TIME]
  refine ⟨?_, by rw [hck], by rw [hck]⟩
  unfold specC6ActiveCond
  right
  refine ⟨by norm_num [CHECK_TIME], ?_, by norm_num [OVER_N]⟩
  have hmax : (((2 : Int), (0 : Int)).2 ⊔ 1) = (1 : Int) := by norm_num
  norm_num [failRatio]

/-- C6 (amended): on a non-closed adapter, `check_active` flips an active
adapter to inactive and sets last-block to `now`, returning
first-time-inactive, exactly when (a) `now − last-success ≥ FAIL_INTERVAL`
and `consecutive-fail ≥ FAIL_N`, or (b) the 60 s check gate is due and
`fail ≥ OVER_N` AND `send > 0` AND `fail / send ≥ failRatio` (the code
divides by `send` itself, guarded by `send > 0`, not by `max(send,1)`); on an
inactive adapter it returns needs-probe and refreshes last-block, without
flipping the active flag, exactly when `now − last-block ≥
TRY_TIME_INTERVAL`. -/
theorem claim_C6 (s : AdapterState) (now : Int) (hc : s.closed = false) :
    (s.status = true →
      ((checkActive s now).2.1 = true ↔
        (now - s.lastSuccessTime ≥ FAIL_INTERVAL ∧ s.lastFailCount ≥ FAIL_N) ∨
        (now - s.lastCheckTime ≥ CHECK_TIME ∧
          (s.failCount ≥ OVER_N ∧ s.sendCount > 0 ∧
            (s.failCount : ℚ) / (s.sendCount : ℚ) ≥ failRatio))) ∧
      ((checkActive s now).2.1 = true →
        (checkActive s now).1.status = false ∧
        (checkActive s now).1.lastBlockTime = now) ∧
      (checkActive s now).2.2 = false) ∧
    (s.status = false →
      ((checkActive s now).2.2 = true ↔ now - s.lastBlockTime ≥ TRY_TIME_INTERVAL) ∧
      (checkActive s now).1.status = s.status ∧
      ((checkActive s now).2.2 = true → (checkActive s now).1.lastBlockTime = now) ∧
      (checkActive s now).2.1 = false) := by
  constructor
  · intro hst
    simp only [checkActive, hc, hst, Bool.false_eq_true, if_false, if_true]
    by_cases hA : now - s.lastSuccessTime ≥ FAIL_INTERVAL ∧ s.lastFailCount ≥ FAIL_N
    · rw [if_pos hA]
      exact ⟨⟨fun _ => Or.inl hA, fun _ => rfl⟩, fun _ => ⟨rfl, rfl⟩, rfl⟩
    · rw [if_neg hA]
      by_cases hG : now - s.lastCheckTime ≥ CHECK_TIME
      · rw [if_pos hG]
        by_cases hB : s.failCount ≥ OVER_N ∧ s.sendCount > 0 ∧
            (s.failCount : ℚ) / (s.sendCount : ℚ) ≥ failRatio
        · rw [if_pos hB]
          exact ⟨⟨fun _ => Or.inr ⟨hG, hB⟩, fun _ => rfl⟩, fun _ => ⟨rfl, rfl⟩, rfl⟩
        · rw [if_neg hB]
          refine ⟨iff_of_false (by simp) ?_, fun habs => absurd habs (by simp), rfl⟩
          rintro (h | ⟨_, h⟩)
          · exact hA h
          · exact hB h
      · rw [if_neg hG]
        refine ⟨iff_of_false (by simp) ?_, fun habs => absurd habs (by simp), rfl⟩
        rintro (h | ⟨h, _⟩)
        · exact hA h
        · exact hG h
  · intro hst
    simp only [checkActive, hc, hst, Bool.false_eq_true, if_false]
    by_cases hT : now - s.lastBlockTime ≥ TRY_TIME_INTERVAL
    · rw [if_pos hT]
      exact ⟨iff_of_true rfl hT, rfl, fun _ => rfl, rfl⟩
    · rw [if_neg hT]
      exact ⟨iff_of_false (by simp) hT, hst, fun habs => absurd habs (by simp), rfl⟩

/-- C6 (witness): an active adapter with 5 consecutive failures and a stale
last-success transitions to inactive; an inactive adapter past
TRY_TIME_INTERVAL is granted a probe without flipping the flag. -/
theorem claim_C6_witness :
    ((checkActive ⟨5, 5, 10, 0, 0, 0, 0, true, false⟩ 10).2.1 = true ↔
      ((10 : Int) - 0 ≥ FAIL_INTERVAL ∧ (5 : Int) ≥ FAIL_N) ∨
      ((10 : Int) - 0 ≥ CHECK_TIME ∧
        ((5 : Int) ≥ OVER_N ∧ (10 : Int) > 0 ∧
          ((5 : Int) : ℚ) / ((10 : Int) : ℚ) ≥ failRatio))) ∧
    ((checkActive ⟨0, 0, 0, 0, 0, 0, 0, false, false⟩ 31).2.2 = true ↔
      (31 : Int) - 0 ≥ TRY_TIME_INTERVAL) := by
  constructor
  · exact ((claim_C6 ⟨5, 5, 10, 0, 0, 0, 0, true, false⟩ 10 rfl).1 rfl).1
  · exact ((claim_C6 ⟨0, 0, 0, 0, 0, 0, 0, false, false⟩ 31 rfl).2 rfl).1

/-- C1: for every representable primitive value and every tag below 256,
writing it into a fresh buffer and reading the same tag back with the
matching reader yields the value: exact for the integer widths, bool,
strings (valid UTF-8, `u32` length), byte arrays (`i32` length) and
string→string maps; for f32/f64 bit patterns the value read back is
IEEE-equal (bitwise identical, except that a negative zero reads back as
positive zero). -/
theorem claim_C1 :
    (∀ (v : Int) (t : Nat) (req : Bool), -128 ≤ v → v < 128 → t < 256 →
      readInt8 t req (writeInt8 v t) = some (v, [])) ∧
    (∀ (v : Int) (t : Nat) (req : Bool), -32768 ≤ v → v < 32768 → t < 256 →
      readInt16 t req (writeInt16 v t) = some (v, [])) ∧
    (∀ (v : Int) (t : Nat) (req : Bool), -2147483648 ≤ v → v < 2147483648 →
      t < 256 → readInt32 t req (writeInt32 v t) = some (v, [])) ∧
    (∀ (v : Int) (t : Nat) (req : Bool), -9223372036854775808 ≤ v →
      v < 9223372036854775808 → t < 256 →
      readInt64 t req (writeInt64 v t) = some (v, [])) ∧
    (∀ (b t : Nat) (req : Bool), b < 2 ^ 32 → t < 256 →
      ∃ b2, readFloat t req (writeFloat b t) = some (b2, []) ∧ f32Eq b2 b) ∧
    (∀ (b t : Nat) (req : Bool), b < 2 ^ 64 → t < 256 →
      ∃ b2, readDouble t req (writeDouble b t) = some (b2, []) ∧ f64Eq b2 b) ∧
    (∀ (v : Bool) (t : Nat) (req : Bool), t < 256 →
      readBool t req (writeBool v t) = some (v, [])) ∧
    (∀ (str : List Nat) (t : Nat) (req : Bool), str.length < 2 ^ 32 →
      utf8Valid str = true → t < 256 →
      readString t req (writeString str t) = some (str, [])) ∧
    (∀ (bs : List Nat) (t : Nat) (req : Bool), bs.length < 2 ^ 31 → t < 256 →
      readBytes t req (writeBytes bs t) = some (bs, [])) ∧
    (∀ (m : List (List Nat × List Nat)) (t : Nat) (req : Bool), m.length < 2 ^ 31 →
      stringMapWf m → t < 256 →
      readStringMap t req (writeStringMap m t) = some (m, [])) := by
  refine ⟨fun v t req h1 h2 ht => ?_, fun v t req h1 h2 ht => ?_,
    fun v t req h1 h2 ht => ?_, fun v t req h1 h2 ht => ?_,
    fun b t req hb ht => ?_, fun b t req hb ht => ?_, fun v t req ht => ?_,
    fun str t req h1 h2 ht => ?_, fun bs t req h1 ht => ?_,
    fun m t req h1 h2 ht => ?_⟩
  · simpa using readInt8_writeInt8 v t req [] h1 h2 ht
  · simpa using readInt16_writeInt16 v t req [] h1 h2 ht
  · simpa using readInt32_writeInt32 v t req [] h1 h2 ht
  · simpa using readInt64_writeInt64 v t req [] h1 h2 ht
  · refine ⟨if f32IsZero b then 0 else b,
      by simpa using readFloat_writeFloat b t req [] hb ht, ?_⟩
    by_cases hz : f32IsZero b
    · rw [if_pos hz]
      exact Or.inr ⟨by decide, hz⟩
    · rw [if_neg hz]
      exact Or.inl rfl
  · refine ⟨if f64IsZero b then 0 else b,
      by simpa using readDouble_writeDouble b t req [] hb ht, ?_⟩
    by_cases hz : f64IsZero b
    · rw [if_pos hz]
      exact Or.inr ⟨by decide, hz⟩
    · rw [if_neg hz]
      exact Or.inl rfl
  · simpa using readBool_writeBool v t req [] ht
  · simpa using readString_writeString str t req [] h1 h2 ht
  · simpa using readBytes_writeBytes bs t req [] h1 ht
  · simpa using readStringMap_writeStringMap m t req [] h1 h2 ht

/-- C1 (witness): concrete round trips for each primitive kind. -/
theorem claim_C1_witness :
    readInt8 1 false (writeInt8 (-5) 1) = some (-5, []) ∧
    readInt16 2 true (writeInt16 1000 2) = some (1000, []) ∧
    readInt32 3 false (writeInt32 100000 3) = some (100000, []) ∧
    readInt64 20 false (writeInt64 10000000000 20) = some (10000000000, []) ∧
    (∃ b2, readFloat 2 false (writeFloat 1065353216 2) = some (b2, []) ∧
      f32Eq b2 1065353216) ∧
    (∃ b2, readDouble 2 false (writeDouble (2 ^ 63) 2) = some (b2, []) ∧
      f64Eq b2 (2 ^ 63)) ∧
    readBool 4 false (writeBool true 4) = some (true, []) ∧
    readString 5 false (writeString [104, 105] 5) = some ([104, 105], []) ∧
    readBytes 7 false (writeBytes [1, 2, 3] 7) = some ([1, 2, 3], []) ∧
    readStringMap 9 false (writeStringMap [([107], [118])] 9) =
      some ([([107], [118])], []) :=
  ⟨claim_C1.1 (-5) 1 false (by norm_num) (by norm_num) (by norm_num),
    claim_C1.2.1 1000 2 true (by norm_num) (by norm_num) (by norm_num),
    claim_C1.2.2.1 100000 3 false (by norm_num) (by norm_num) (by norm_num),
    claim_C1.2.2.2.1 10000000000 20 false (by norm_num) (by norm_num) (by norm_num),
    claim_C1.2.2.2.2.1 1065353216 2 false (by norm_num) (by norm_num),
    claim_C1.2.2.2.2.2.1 (2 ^ 63) 2 false (by norm_num) (by norm_num),
    claim_C1.2.2.2.2.2.2.1 true 4 false (by norm_num),
    claim_C1.2.2.2.2.2.2.2.1 [104, 105] 5 false (by norm_num) (by decide) (by norm_num),
    claim_C1.2.2.2.2.2.2.2.2.1 [1, 2, 3] 7 false (by norm_num) (by norm_num),
    claim_C1.2.2.2.2.2.2.2.2.2 [([107], [118])] 9 false (by norm_num) (by decide)
      (by norm_num)⟩

/-- C4: for every well-formed writer-emittable value at any tag, reading the
head and then skipping the field consumes exactly the bytes the encoder
produced, leaving the cursor at the following data — covering the nested
map/list/struct/simple-list cases and the payload-free zero-tag and
struct-end heads. -/
theorem claim_C4 (v : TarsValue) (tag : Nat) (rest : List Nat) (F : Nat)
    (hwf : wfV v = true) (hF : fuelV v ≤ F) :
    readHead (encodeVal v tag ++ rest) =
      some (⟨tyOf v, tag % 256⟩, payloadV v ++ rest) ∧
    skipField F (tyOf v) (payloadV v ++ rest) = some rest := by
  constructor
  · rw [encodeVal_head_payload, List.append_assoc, readHead_writeHead]
  · exact skipField_payload v F rest hwf hF

/-- C4 (witness): a nested map value (string and byte-array keys, int,
struct-of-list values) at tag 5 with trailing bytes. -/
theorem claim_C4_witness :
    readHead (encodeVal (TarsValue.vMap [(TarsValue.vString [104, 105], TarsValue.vInt 300),
        (TarsValue.vBytes [1, 2], TarsValue.vStruct [(2, TarsValue.vList [TarsValue.vInt 0])])]) 5 ++ [9, 9]) =
      some (⟨tyOf (TarsValue.vMap [(TarsValue.vString [104, 105], TarsValue.vInt 300),
        (TarsValue.vBytes [1, 2], TarsValue.vStruct [(2, TarsValue.vList [TarsValue.vInt 0])])]), 5 % 256⟩,
        payloadV (TarsValue.vMap [(TarsValue.vString [104, 105], TarsValue.vInt 300),
        (TarsValue.vBytes [1, 2], TarsValue.vStruct [(2, TarsValue.vList [TarsValue.vInt 0])])]) ++ [9, 9]) ∧
    skipField 50 (tyOf (TarsValue.vMap [(TarsValue.vString [104, 105], TarsValue.vInt 300),
        (TarsValue.vBytes [1, 2], TarsValue.vStruct [(2, TarsValue.vList [TarsValue.vInt 0])])]))
      (payloadV (TarsValue.vMap [(TarsValue.vString [104, 105], TarsValue.vInt 300),
        (TarsValue.vBytes [1, 2], TarsValue.vStruct [(2, TarsValue.vList [TarsValue.vInt 0])])]) ++ [9, 9]) =
      some [9, 9] :=
  claim_C4 (TarsValue.vMap [(TarsValue.vString [104, 105], TarsValue.vInt 300),
      (TarsValue.vBytes [1, 2], TarsValue.vStruct [(2, TarsValue.vList [TarsValue.vInt 0])])])
    5 [9, 9] 50
    (by
      have h1 : wfV (TarsValue.vString [104, 105]) = true := by
        rw [wfV.eq_def]
        decide
      have h2 : wfV (TarsValue.vInt 300) = true := by
        rw [wfV.eq_def]
      have h3 : wfV (TarsValue.vBytes [1, 2]) = true := by
        rw [wfV.eq_def]
        decide
      have h4 : wfV (TarsValue.vInt 0) = true := by
        rw [wfV.eq_def]
      have h5 : wfItems [TarsValue.vInt 0] = true := by
        rw [wfItems.eq_def]
        simp only [h4]
        rfl
      have h6 : wfV (TarsValue.vList [TarsValue.vInt 0]) = true := by
        rw [wfV.eq_def]
        simp only [h5]
        decide
      have h7 : wfFields [(2, TarsValue.vList [TarsValue.vInt 0])] = true := by
        rw [wfFields.eq_def]
        simp only [h6]
        rfl
      have h8 : wfV (TarsValue.vStruct [(2, TarsValue.vList [TarsValue.vInt 0])]) = true := by
        rw [wfV.eq_def]
        exact h7
      have h9 : wfPairs [(TarsValue.vBytes [1, 2],
          TarsValue.vStruct [(2, TarsValue.vList [TarsValue.vInt 0])])] = true := by
        rw [wfPairs.eq_def]
        simp only [h3, h8]
        rfl
      have h10 : wfPairs [(TarsValue.vString [104, 105], TarsValue.vInt 300),
          (TarsValue.vBytes [1, 2],
            TarsValue.vStruct [(2, TarsValue.vList [TarsValue.vInt 0])])] = true := by
        rw [wfPairs.eq_def]
        simp only [h1, h2, h9]
        rfl
      rw [wfV.eq_def]
      simp only [h10]
      decide)
    (by
      simp only [fuelV, fuelPairs, fuelItems, fuelFields]
      omega)

/-- C5: encoding a well-formed request or response packet (tagged fields plus
4-byte big-endian total-length prefix) and decoding the result restores every
field; decode also accepts the body without the prefix, and strips the first
4 bytes exactly when they parse as a length equal to the input slice
length. -/
theorem claim_C5 :
    (∀ p : RequestPacket, p.wf → p.writeTo.length + 4 < 2 ^ 32 →
      RequestPacket.decode p.encode = some p) ∧
    (∀ p : ResponsePacket, p.wf → p.writeTo.length + 4 < 2 ^ 32 →
      ResponsePacket.decode p.encode = some p) ∧
    (∀ p : RequestPacket, p.wf → p.writeTo.length < 2 ^ 28 →
      RequestPacket.decode p.writeTo = some p) ∧
    (∀ p : ResponsePacket, p.wf → p.writeTo.length < 2 ^ 28 →
      ResponsePacket.decode p.writeTo = some p) ∧
    (∀ data : List Nat,
      (4 ≤ data.length → beU32 data = data.length →
        RequestPacket.decode data = RequestPacket.readFrom (data.drop 4) ∧
        ResponsePacket.decode data = ResponsePacket.readFrom (data.drop 4)) ∧
      (¬ (4 ≤ data.length ∧ beU32 data = data.length) →
        RequestPacket.decode data = RequestPacket.readFrom data ∧
        ResponsePacket.decode data = ResponsePacket.readFrom data)) := by
  refine ⟨decode_encode_request, decode_encode_response, decode_noPrefix_request,
    decode_noPrefix_response, fun data => ⟨fun h4 he => ?_, fun hno => ?_⟩⟩
  · unfold RequestPacket.decode ResponsePacket.decode
    rw [if_pos h4, if_pos he]
    exact ⟨rfl, rfl⟩
  · unfold RequestPacket.decode ResponsePacket.decode
    by_cases h4 : 4 ≤ data.length
    · have he : ¬ beU32 data = data.length := fun he => hno ⟨h4, he⟩
      rw [if_pos h4, if_neg he]
      exact ⟨rfl, rfl⟩
    · rw [if_neg h4]
      exact ⟨rfl, rfl⟩

/-- C5 (witness): a concrete request packet and a concrete response packet
round-trip through encode/decode, and the request body decodes without the
length prefix. -/
theorem claim_C5_witness :
    RequestPacket.decode (RequestPacket.encode ⟨1, 0, 0, 42, [97], [98], [1, 2], 3000, [([107], [118])], []⟩) =
      some ⟨1, 0, 0, 42, [97], [98], [1, 2], 3000, [([107], [118])], []⟩ ∧
    ResponsePacket.decode (ResponsePacket.encode ⟨1, 0, 7, 0, 0, [9, 9], [], [111, 107], []⟩) =
      some ⟨1, 0, 7, 0, 0, [9, 9], [], [111, 107], []⟩ ∧
    RequestPacket.decode (RequestPacket.writeTo ⟨1, 0, 0, 42, [97], [98], [1, 2], 3000, [([107], [118])], []⟩) =
      some ⟨1, 0, 0, 42, [97], [98], [1, 2], 3000, [([107], [118])], []⟩ :=
  ⟨claim_C5.1 ⟨1, 0, 0, 42, [97], [98], [1, 2], 3000, [([107], [118])], []⟩
      (by decide) (by decide),
    claim_C5.2.1 ⟨1, 0, 7, 0, 0, [9, 9], [], [111, 107], []⟩ (by decide) (by decide),
    claim_C5.2.2.1 ⟨1, 0, 0, 42, [97], [98], [1, 2], 3000, [([107], [118])], []⟩
      (by decide) (by decide)⟩

end TarsRust
